import Mathlib

/-!
# PCI enumeration of lshw (`pci.cc`): shallow embedding and checked properties

The embedding follows `src/pci.cc` function by function.

* Machine integers are `Nat` with explicit reductions (`% 256` for `u_int8_t`,
  `% 65536` for `u_int16_t`, `% 4294967296` for `unsigned int`).
* An access to `d.config` outside its 256 bytes has no defined result: the
  decoders return `Option Nat`, `none` standing for such an access.
* `hwNode` and `hw::hwClass` are declared outside `pci.cc` (which includes
  `pci.h`) and are not part of the sources at hand; they are modelled from the
  interface the specification gives for them.
* A pointer to a child (`hwNode *`) is the index of that child in the
  children of its parent.
* A table line is what `sscanf` yields for it (the count of converted fields
  and the values stored); a config file is the list of bytes `read` returns.
* The lines `scan_pci` writes to standard output with `printf` are left out.
-/

namespace Lshw

set_option maxRecDepth 100000

/-! ## Constants of `pci.cc` -/

abbrev PCI_CLASS_DEVICE : Nat := 0x0a
abbrev PCI_SECONDARY_BUS : Nat := 0x19

abbrev PCI_CLASS_NOT_DEFINED_VGA : Nat := 0x0001
abbrev PCI_BASE_CLASS_STORAGE : Nat := 0x01
abbrev PCI_CLASS_STORAGE_SCSI : Nat := 0x0100
abbrev PCI_CLASS_STORAGE_IDE : Nat := 0x0101
abbrev PCI_CLASS_STORAGE_FLOPPY : Nat := 0x0102
abbrev PCI_CLASS_STORAGE_IPI : Nat := 0x0103
abbrev PCI_CLASS_STORAGE_RAID : Nat := 0x0104
abbrev PCI_BASE_CLASS_NETWORK : Nat := 0x02
abbrev PCI_CLASS_NETWORK_ETHERNET : Nat := 0x0200
abbrev PCI_CLASS_NETWORK_TOKEN_RING : Nat := 0x0201
abbrev PCI_CLASS_NETWORK_FDDI : Nat := 0x0202
abbrev PCI_CLASS_NETWORK_ATM : Nat := 0x0203
abbrev PCI_BASE_CLASS_DISPLAY : Nat := 0x03
abbrev PCI_BASE_CLASS_MULTIMEDIA : Nat := 0x04
abbrev PCI_BASE_CLASS_MEMORY : Nat := 0x05
abbrev PCI_BASE_CLASS_BRIDGE : Nat := 0x06
abbrev PCI_CLASS_BRIDGE_HOST : Nat := 0x0600
abbrev PCI_CLASS_BRIDGE_ISA : Nat := 0x0601
abbrev PCI_CLASS_BRIDGE_EISA : Nat := 0x0602
abbrev PCI_CLASS_BRIDGE_MC : Nat := 0x0603
abbrev PCI_CLASS_BRIDGE_PCI : Nat := 0x0604
abbrev PCI_CLASS_BRIDGE_PCMCIA : Nat := 0x0605
abbrev PCI_CLASS_BRIDGE_NUBUS : Nat := 0x0606
abbrev PCI_CLASS_BRIDGE_CARDBUS : Nat := 0x0607
abbrev PCI_BASE_CLASS_COMMUNICATION : Nat := 0x07
abbrev PCI_BASE_CLASS_SYSTEM : Nat := 0x08
abbrev PCI_BASE_CLASS_INPUT : Nat := 0x09
abbrev PCI_BASE_CLASS_DOCKING : Nat := 0x0a
abbrev PCI_BASE_CLASS_PROCESSOR : Nat := 0x0b
abbrev PCI_BASE_CLASS_SERIAL : Nat := 0x0c
abbrev PCI_CLASS_SERIAL_FIREWIRE : Nat := 0x0c00
abbrev PCI_CLASS_SERIAL_USB : Nat := 0x0c03
abbrev PCI_CLASS_SERIAL_FIBER : Nat := 0x0c04

/-- The macro `PCI_SLOT(devfn)`: `(((devfn) >> 3) & 0x1f)`. -/
def PCI_SLOT (devfn : Nat) : Nat := (devfn >>> 3) &&& 0x1f

/-- The macro `PCI_FUNC(devfn)`: `((devfn) & 0x07)`. -/
def PCI_FUNC (devfn : Nat) : Nat := devfn &&& 0x07

/-! ## The inventory tree (interface used by `pci.cc`) -/

/-- Modelled from the spec: the device-kind enum `hw::hwClass`, declared outside
`pci.cc`, with the kinds the specification lists for it. -/
inductive hwClass where
  | system | bridge | storage | network | memory | multimedia | display
  | communication | input | processor | bus | generic
deriving DecidableEq, Repr

/-- Modelled from the spec: the inventory node `hwNode`, declared outside
`pci.cc`: a short name, a device kind, a description, a handle and an ordered
list of children. -/
structure hwNode where
  name : String
  kind : hwClass
  description : String
  handle : String
  children : List hwNode
deriving Repr

/-- Index of the first node of a list carrying the handle `h`. -/
def firstByHandle (h : String) : List hwNode → Option Nat
  | [] => none
  | c :: cs => if c.handle = h then some 0 else (firstByHandle h cs).map (· + 1)

/-- Index of the first node of a list carrying the name `nm`. -/
def firstByName (nm : String) : List hwNode → Option Nat
  | [] => none
  | c :: cs => if c.name = nm then some 0 else (firstByName nm cs).map (· + 1)

/-- Apply `f` to the node at index `i` of a list (a write through a pointer to
that node); no change when `i` is not an index of the list. -/
def modifyAt (f : hwNode → hwNode) : Nat → List hwNode → List hwNode
  | _, [] => []
  | 0, c :: cs => f c :: cs
  | i + 1, c :: cs => c :: modifyAt f i cs

namespace hwNode

/-- Modelled from the spec: the constructor `hwNode(name, kind)`: no
description, no handle, no children. -/
def new (name : String) (kind : hwClass) : hwNode :=
  { name := name, kind := kind, description := "", handle := "", children := [] }

/-- Modelled from the spec: `set_handle(h)`. -/
def setHandle (n : hwNode) (h : String) : hwNode := { n with handle := h }

/-- Modelled from the spec: `set_description(s)`. -/
def setDescription (n : hwNode) (s : String) : hwNode := { n with description := s }

/-- Modelled from the spec: `add_child(node)` appends; children are ordered. -/
def addChild (n : hwNode) (c : hwNode) : hwNode := { n with children := n.children ++ [c] }

/-- Modelled from the spec: `find_child_by_handle(h)`, a lookup among the direct
children only; the result points to the first child carrying the handle. -/
def findChildByHandle (n : hwNode) (h : String) : Option Nat := firstByHandle h n.children

/-- Modelled from the spec: `get_child(name)`, a lookup by name among the
children of the node it is called on. -/
def getChild (n : hwNode) (nm : String) : Option Nat := firstByName nm n.children

/-- A write `p->f()` through the pointer `p` to the child of index `i`. -/
def atChild (n : hwNode) (i : Nat) (f : hwNode → hwNode) : hwNode :=
  { n with children := modifyAt f i n.children }

end hwNode

mutual
/-- Number of nodes of a subtree, its root included. -/
def hwNode.size : hwNode → Nat
  | ⟨_, _, _, _, cs⟩ => 1 + sizeList cs
/-- Number of nodes of a forest. -/
def sizeList : List hwNode → Nat
  | [] => 0
  | c :: cs => c.size + sizeList cs
end

mutual
/-- The handles of all nodes of a subtree, the root first. -/
def hwNode.handles : hwNode → List String
  | ⟨_, _, _, h, cs⟩ => h :: handlesList cs
/-- The handles of all nodes of a forest. -/
def handlesList : List hwNode → List String
  | [] => []
  | c :: cs => c.handles ++ handlesList cs
end

/-! ## Class registry -/

/-- The function `get_class_name`: a switch on the full code, then a switch on
`c >> 8`, then `"generic"`. -/
def get_class_name (c : Nat) : String :=
  if c = PCI_CLASS_NOT_DEFINED_VGA then "display"
  else if c = PCI_CLASS_STORAGE_SCSI then "scsi"
  else if c = PCI_CLASS_STORAGE_IDE then "ide"
  else if c = PCI_CLASS_BRIDGE_HOST then "host"
  else if c = PCI_CLASS_BRIDGE_ISA then "isa"
  else if c = PCI_CLASS_BRIDGE_EISA then "eisa"
  else if c = PCI_CLASS_BRIDGE_MC then "mc"
  else if c = PCI_CLASS_BRIDGE_PCI then "pci"
  else if c = PCI_CLASS_BRIDGE_PCMCIA then "pcmcia"
  else if c = PCI_CLASS_BRIDGE_NUBUS then "nubus"
  else if c = PCI_CLASS_BRIDGE_CARDBUS then "pcmcia"
  else if c = PCI_CLASS_SERIAL_FIREWIRE then "firewire"
  else if c = PCI_CLASS_SERIAL_USB then "usb"
  else if c = PCI_CLASS_SERIAL_FIBER then "fiber"
  else if c >>> 8 = PCI_BASE_CLASS_STORAGE then "storage"
  else if c >>> 8 = PCI_BASE_CLASS_NETWORK then "network"
  else if c >>> 8 = PCI_BASE_CLASS_DISPLAY then "display"
  else if c >>> 8 = PCI_BASE_CLASS_MULTIMEDIA then "multimedia"
  else if c >>> 8 = PCI_BASE_CLASS_MEMORY then "memory"
  else if c >>> 8 = PCI_BASE_CLASS_BRIDGE then "bridge"
  else if c >>> 8 = PCI_BASE_CLASS_COMMUNICATION then "communication"
  else if c >>> 8 = PCI_BASE_CLASS_SYSTEM then "system"
  else if c >>> 8 = PCI_BASE_CLASS_INPUT then "input"
  else if c >>> 8 = PCI_BASE_CLASS_DOCKING then "docking"
  else if c >>> 8 = PCI_BASE_CLASS_PROCESSOR then "processor"
  else if c >>> 8 = PCI_BASE_CLASS_SERIAL then "serial"
  else "generic"

/-- The function `get_class_description`: one switch on the full code, the
default being the empty string. -/
def get_class_description (c : Nat) : String :=
  if c = PCI_CLASS_NOT_DEFINED_VGA then "VGA Display Adapter"
  else if c = PCI_CLASS_STORAGE_SCSI then "SCSI Adapter"
  else if c = PCI_CLASS_STORAGE_IDE then "IDE Controller"
  else if c = PCI_CLASS_STORAGE_FLOPPY then "Floppy Controller"
  else if c = PCI_CLASS_STORAGE_IPI then "IPI Controller"
  else if c = PCI_CLASS_STORAGE_RAID then "RAID Controller"
  else if c = PCI_CLASS_NETWORK_ETHERNET then "Ethernet Network Adapter"
  else if c = PCI_CLASS_NETWORK_TOKEN_RING then "Token Ring Network Adapter"
  else if c = PCI_CLASS_NETWORK_FDDI then "FDDI Network Adapter"
  else if c = PCI_CLASS_NETWORK_ATM then "ATM Network Adapter"
  else if c = PCI_CLASS_BRIDGE_HOST then "Host Bridge"
  else if c = PCI_CLASS_BRIDGE_ISA then "ISA Bridge"
  else if c = PCI_CLASS_BRIDGE_EISA then "EISA Bridge"
  else if c = PCI_CLASS_BRIDGE_MC then "MC Bridge"
  else if c = PCI_CLASS_BRIDGE_PCI then "PCI Bridge"
  else if c = PCI_CLASS_BRIDGE_PCMCIA then "PCMCIA Bridge"
  else if c = PCI_CLASS_BRIDGE_NUBUS then "NUBUS Bridge"
  else if c = PCI_CLASS_BRIDGE_CARDBUS then "CARDBUS Bridge"
  else ""

/-- The switch on `dclass >> 8` of `scan_pci` choosing the kind of the new
node; `hw::generic` is the initial value and stays when no case matches. -/
def deviceclass_of (dclass : Nat) : hwClass :=
  if dclass >>> 8 = PCI_BASE_CLASS_STORAGE then hwClass.storage
  else if dclass >>> 8 = PCI_BASE_CLASS_NETWORK then hwClass.network
  else if dclass >>> 8 = PCI_BASE_CLASS_MEMORY then hwClass.memory
  else if dclass >>> 8 = PCI_BASE_CLASS_BRIDGE then hwClass.bridge
  else if dclass >>> 8 = PCI_BASE_CLASS_MULTIMEDIA then hwClass.multimedia
  else if dclass >>> 8 = PCI_BASE_CLASS_DISPLAY then hwClass.display
  else if dclass >>> 8 = PCI_BASE_CLASS_COMMUNICATION then hwClass.communication
  else if dclass >>> 8 = PCI_BASE_CLASS_SYSTEM then hwClass.system
  else if dclass >>> 8 = PCI_BASE_CLASS_INPUT then hwClass.input
  else if dclass >>> 8 = PCI_BASE_CLASS_PROCESSOR then hwClass.processor
  else if dclass >>> 8 = PCI_BASE_CLASS_SERIAL then hwClass.bus
  else hwClass.generic

/-! ## Devices and the config-space decoder -/

/-- The struct `pci_dev`. `config` is the array `u_int8_t config[256]`. -/
structure pci_dev where
  bus : Nat
  dev : Nat
  func : Nat
  vendor_id : Nat
  device_id : Nat
  irq : Nat
  base_addr : List Nat
  size : List Nat
  rom_base_addr : Nat
  rom_size : Nat
  config : List Nat
deriving Repr, DecidableEq

/-- The function `get_conf_word`: the guard is `pos > sizeof(d.config)`; past it
the bytes at `pos` and `pos + 1` are indexed, and the result is cut to 16 bits. -/
def get_conf_word (d : pci_dev) (pos : Nat) : Option Nat :=
  if pos > 256 then some 0
  else
    match d.config[pos]?, d.config[pos + 1]? with
    | some lo, some hi => some ((lo ||| (hi <<< 8)) % 65536)
    | _, _ => none

/-- The function `get_conf_byte`: the guard is `pos > sizeof(d.config)`; past it
the byte at `pos` is indexed. -/
def get_conf_byte (d : pci_dev) (pos : Nat) : Option Nat :=
  if pos > 256 then some 0
  else
    match d.config[pos]? with
    | some b => some (b % 256)
    | none => none

/-! ## Handle formatter -/

/-- The lowercase hexadecimal digit of a value below 16, as `printf` writes it. -/
def hexDigit (n : Nat) : Char :=
  if n < 10 then Char.ofNat (48 + n) else Char.ofNat (87 + n)

/-- Digits of `n` in base 16, most significant first, in front of `acc`; `fuel`
bounds the number of divisions. -/
def hexCore : Nat → Nat → List Char → List Char
  | 0, n, acc => hexDigit (n % 16) :: acc
  | fuel + 1, n, acc =>
    if n < 16 then hexDigit n :: acc
    else hexCore fuel (n / 16) (hexDigit (n % 16) :: acc)

/-- The conversion `%x` of `printf`: the lowercase hexadecimal numeral of `n`. -/
def toHex (n : Nat) : List Char := hexCore n n []

/-- The conversion `%0wx` of `printf`: the numeral of `n`, padded on the left
with `0` to at least `w` characters (`%x` is the case `w = 1`). -/
def fmt_x (w n : Nat) : List Char :=
  List.replicate (w - (toHex n).length) '0' ++ toHex n

/-- What `snprintf(buffer, size, ...)` leaves in the buffer: at most `size - 1`
characters of the formatted text. -/
def snprintf (size : Nat) (text : List Char) : List Char := text.take (size - 1)

/-- The function `pci_bushandle(u_int8_t bus)`: `"PCIBUS:"` followed by the
buffer filled by `snprintf(buffer, 10, "%02x", bus)`. The argument is
converted to 8 bits. -/
def pci_bushandle (bus : Nat) : String :=
  "PCIBUS:" ++ String.mk (snprintf 10 (fmt_x 2 (bus % 256)))

/-- The function `pci_handle(u_int16_t bus, u_int8_t dev, u_int8_t fct)`: the
buffer filled by `snprintf(buffer, 20, "PCI:%02x:%02x.%x", bus, dev, fct)`. -/
def pci_handle (bus dev fct : Nat) : String :=
  String.mk (snprintf 20 (['P', 'C', 'I', ':'] ++ fmt_x 2 (bus % 65536) ++ [':']
    ++ fmt_x 2 (dev % 256) ++ ['.'] ++ fmt_x 1 (fct % 256)))

/-! ## Device table and enumeration -/

/-- What one `sscanf` of the loop of `scan_pci` yields for one line read by
`fgets`: the number `cnt` of converted fields and the values stored. -/
structure Line where
  cnt : Nat
  dfn : Nat
  vend : Nat
  irq : Nat
  base_addr : List Nat
  rom_base_addr : Nat
  size : List Nat
  rom_size : Nat
  driver : String
deriving Repr, DecidableEq

/-- The files under `/proc/bus/pci` the scan reads: `devices` is the device
table (`none` when `fopen` fails) and `config path` the bytes `read` returns
for the per-device file at `path` (`none` when `open` fails). -/
structure ProcBusPci where
  devices : Option (List Line)
  config : String → Option (List Nat)

abbrev PROC_BUS_PCI : String := "/proc/bus/pci"

/-- The bytes of `d.config` after `memset(&d, 0, sizeof(d))` and, when the
file could be opened, `read(fd, d.config, sizeof(d.config))`. -/
def read_config (file : Option (List Nat)) : List Nat :=
  match file with
  | none => List.replicate 256 0
  | some bytes =>
    (bytes.take 256).map (· % 256) ++ List.replicate (256 - (bytes.take 256).length) 0

/-- The device `d` of one iteration of the loop of `scan_pci`, from the fields
of the line to the read of its config file. -/
def read_dev (config : String → Option (List Nat)) (l : Line) : pci_dev :=
  let dfn := l.dfn % 4294967296
  let bus := (dfn >>> 8) % 65536
  let dev := PCI_SLOT (dfn &&& 0xff) % 256
  let func := PCI_FUNC (dfn &&& 0xff) % 256
  let devicename := snprintf 20 (fmt_x 2 bus ++ ['/'] ++ fmt_x 2 dev ++ ['.'] ++ fmt_x 1 func)
  let devicepath := PROC_BUS_PCI ++ "/" ++ String.mk devicename
  { bus := bus, dev := dev, func := func,
    vendor_id := ((l.vend % 4294967296) >>> 16) % 65536,
    device_id := ((l.vend % 4294967296) &&& 0xffff) % 65536,
    irq := l.irq, base_addr := l.base_addr, size := l.size,
    rom_base_addr := l.rom_base_addr, rom_size := l.rom_size,
    config := read_config (config devicepath) }

/-- The node `device` of `scan_pci`: created with the class name and the kind,
then given its handle and its description. -/
def new_device (d : pci_dev) (dclass : Nat) : Option hwNode :=
  let deviceclass := deviceclass_of dclass
  let device := hwNode.new (get_class_name dclass) deviceclass
  let keyed : Option hwNode :=
    if dclass = PCI_CLASS_BRIDGE_PCI then
      match get_conf_byte d PCI_SECONDARY_BUS with
      | some b => some (device.setHandle (pci_bushandle b))
      | none => none
    else some (device.setHandle (pci_handle d.bus d.dev d.func))
  match keyed with
  | some device => some (device.setDescription (get_class_description dclass))
  | none => none

/-- The placement of `device` in `scan_pci`: under the child of `host` found by
`findChildByHandle(pci_bushandle(d.bus))`, else under `host`. -/
def attach (host : hwNode) (d : pci_dev) (device : hwNode) : hwNode :=
  match host.findChildByHandle (pci_bushandle d.bus) with
  | some bus => host.atChild bus (fun b => b.addChild device)
  | none => host.addChild device

/-- The body of the loop of `scan_pci` after the test of the field count. -/
def scan_line (config : String → Option (List Nat)) (host : hwNode) (l : Line) :
    Option hwNode :=
  let d := read_dev config l
  match get_conf_word d PCI_CLASS_DEVICE with
  | none => none
  | some dclass =>
    if dclass = PCI_CLASS_BRIDGE_HOST then
      some ((host.setDescription (get_class_description dclass)).setHandle
        (pci_bushandle d.bus))
    else
      match new_device d dclass with
      | some device => some (attach host d device)
      | none => none

/-- The loop `while (fgets(...))` of `scan_pci` over the lines of the table;
the `break` leaves the loop with the host built so far. -/
def scan_lines (config : String → Option (List Nat)) : List Line → hwNode → Option hwNode
  | [], host => some host
  | l :: ls, host =>
    if l.cnt ≠ 9 ∧ l.cnt ≠ 10 ∧ l.cnt ≠ 17 ∧ l.cnt ≠ 18 then some host
    else
      match scan_line config host l with
      | some host1 => scan_lines config ls host1
      | none => none

/-- The node `host` of `scan_pci` before the table is read. -/
def host_init : hwNode := (hwNode.new "pci" hwClass.bridge).setHandle (pci_bushandle 0)

/-- The node `host` of `scan_pci` when the loop is left. -/
def scan_host (config : String → Option (List Nat)) (lines : List Line) : Option hwNode :=
  scan_lines config lines host_init

/-- The function `scan_pci`: the tree `n` after the call (the value returned
by the C++ function is `false` on every path). -/
def scan_pci (proc : ProcBusPci) (n : hwNode) : Option hwNode :=
  match proc.devices with
  | none => some n
  | some lines =>
    match scan_host proc.config lines with
    | none => none
    | some host =>
      let n1 :=
        match n.getChild "core" with
        | some _ => n
        | none => n.addChild (hwNode.new "core" hwClass.system)
      match n1.getChild "core" with
      | some core => some (n1.atChild core (fun c => c.addChild host))
      | none => some n1

/-! ## The tables of the specification -/

/-- The entry of a table of the specification for the key `c`, if it has one. -/
def lookupCode {α : Type} (c : Nat) : List (Nat × α) → Option α
  | [] => none
  | (k, v) :: t => if c = k then some v else lookupCode c t

/-- The specific-code overrides of the specification, column Name. -/
def class_name_overrides : List (Nat × String) :=
  [(0x0001, "display"), (0x0100, "scsi"), (0x0101, "ide"), (0x0600, "host"),
   (0x0601, "isa"), (0x0602, "eisa"), (0x0603, "mc"), (0x0604, "pci"),
   (0x0605, "pcmcia"), (0x0606, "nubus"), (0x0607, "pcmcia"), (0x0c00, "firewire"),
   (0x0c03, "usb"), (0x0c04, "fiber")]

/-- The base-class fallback of the specification (high byte, name). -/
def base_class_names : List (Nat × String) :=
  [(0x01, "storage"), (0x02, "network"), (0x03, "display"), (0x04, "multimedia"),
   (0x05, "memory"), (0x06, "bridge"), (0x07, "communication"), (0x08, "system"),
   (0x09, "input"), (0x0a, "docking"), (0x0b, "processor"), (0x0c, "serial")]

/-- The registry `class_name(code)` in the words of the specification: the
override of the full code, else the tag of the high byte, else `"generic"`. -/
def class_name_spec (c : Nat) : String :=
  match lookupCode c class_name_overrides with
  | some s => s
  | none =>
    match lookupCode (c / 256 % 256) base_class_names with
    | some s => s
    | none => "generic"

/-- The specific-code table of the specification, column Description. -/
def class_descriptions : List (Nat × String) :=
  [(0x0001, "VGA Display Adapter"), (0x0100, "SCSI Adapter"), (0x0101, "IDE Controller"),
   (0x0102, "Floppy Controller"), (0x0103, "IPI Controller"), (0x0104, "RAID Controller"),
   (0x0200, "Ethernet Network Adapter"), (0x0201, "Token Ring Network Adapter"),
   (0x0202, "FDDI Network Adapter"), (0x0203, "ATM Network Adapter"),
   (0x0600, "Host Bridge"), (0x0601, "ISA Bridge"), (0x0602, "EISA Bridge"),
   (0x0603, "MC Bridge"), (0x0604, "PCI Bridge"), (0x0605, "PCMCIA Bridge"),
   (0x0606, "NUBUS Bridge"), (0x0607, "CARDBUS Bridge")]

/-- The registry `class_description(code)` in the words of the specification:
the description of the table, else the empty string. -/
def class_description_spec (c : Nat) : String :=
  match lookupCode c class_descriptions with
  | some s => s
  | none => ""

/-- The device kinds of the specification (base class, kind). -/
def base_class_kinds : List (Nat × hwClass) :=
  [(0x01, hwClass.storage), (0x02, hwClass.network), (0x03, hwClass.display),
   (0x04, hwClass.multimedia), (0x05, hwClass.memory), (0x06, hwClass.bridge),
   (0x07, hwClass.communication), (0x08, hwClass.system), (0x09, hwClass.input),
   (0x0b, hwClass.processor), (0x0c, hwClass.bus)]

/-- The device kind of a base class in the words of the specification: the
kind of the table, any other base class being generic. -/
def kind_of_base_class (b : Nat) : hwClass :=
  match lookupCode b base_class_kinds with
  | some k => k
  | none => hwClass.generic

/-! ## Concrete inputs -/

/-- A table line of seventeen fields for the function of address `dfn`. -/
def sample_line (dfn : Nat) : Line :=
  { cnt := 17, dfn := dfn, vend := 0x80861237, irq := 0x0b,
    base_addr := [0, 0, 0, 0, 0, 0], rom_base_addr := 0,
    size := [0, 0, 0, 0, 0, 0], rom_size := 0, driver := "" }

/-- The first 26 bytes of a config image of class word `cls` and
secondary-bus byte `sec`. -/
def config_image (cls sec : Nat) : List Nat :=
  List.replicate 10 0 ++ [cls % 256, cls / 256] ++ List.replicate 13 0 ++ [sec]

/-- A device whose config image ends in the bytes `lo` and `hi`. -/
def sample_dev (lo hi : Nat) : pci_dev :=
  { bus := 0, dev := 0, func := 0, vendor_id := 0x8086, device_id := 0x1237, irq := 0,
    base_addr := [0, 0, 0, 0, 0, 0], size := [0, 0, 0, 0, 0, 0],
    rom_base_addr := 0, rom_size := 0,
    config := List.replicate 254 0 ++ [lo, hi] }

/-! ## The handle grammar of the specification -/

/-- A lowercase hexadecimal digit: `0` to `9` or `a` to `f`. -/
def isLowerHex (c : Char) : Bool :=
  (48 ≤ c.toNat && c.toNat ≤ 57) || (97 ≤ c.toNat && c.toNat ≤ 102)

/-- The grammar `PCI:<bb>:<dd>.<f>` of the specification: two hexadecimal
digits of the bus, two of the device and one of the function. -/
def isFunctionHandle (s : String) : Bool :=
  match s.data with
  | [p, c, i, k1, b1, b0, k2, d1, d0, k3, f] =>
    p == 'P' && c == 'C' && i == 'I' && k1 == ':' && isLowerHex b1 && isLowerHex b0
      && k2 == ':' && isLowerHex d1 && isLowerHex d0 && k3 == '.' && isLowerHex f
  | _ => false

/-! ## Total readings of the loop body -/

/-- The class word `dclass` the loop of `scan_pci` reads for a line. -/
def dclass_of (config : String → Option (List Nat)) (l : Line) : Nat :=
  (get_conf_word (read_dev config l) PCI_CLASS_DEVICE).getD 0

/-- The node the loop of `scan_pci` creates for a line. -/
def device_of (config : String → Option (List Nat)) (l : Line) : hwNode :=
  (new_device (read_dev config l) (dclass_of config l)).getD (hwNode.new "" hwClass.generic)

/-- The host after the loop body has run on a line. -/
def step (config : String → Option (List Nat)) (host : hwNode) (l : Line) : hwNode :=
  (scan_line config host l).getD host

/-- The test of the field count: `true` when the loop goes on. -/
def valid_count (l : Line) : Bool :=
  l.cnt = 9 || l.cnt = 10 || l.cnt = 17 || l.cnt = 18

/-- Whether the class word read for a line is not the host-bridge class. -/
def not_host_bridge (config : String → Option (List Nat)) (l : Line) : Bool :=
  decide (get_conf_word (read_dev config l) PCI_CLASS_DEVICE ≠ some PCI_CLASS_BRIDGE_HOST)

/-- The files of a machine with a host bridge, a PCI-to-PCI bridge behind it, a
second PCI-to-PCI bridge behind the first, a SCSI adapter behind the second,
a network adapter on bus 0, one more PCI-to-PCI bridge on bus 0 whose
secondary bus is that of the first, and one whose secondary-bus byte is 0. -/
def sample_files : String → Option (List Nat) := fun p =>
  if p = "/proc/bus/pci/00/00.0" then some (config_image 0x0600 0)
  else if p = "/proc/bus/pci/00/1e.0" then some (config_image 0x0604 1)
  else if p = "/proc/bus/pci/01/00.0" then some (config_image 0x0604 2)
  else if p = "/proc/bus/pci/02/00.0" then some (config_image 0x0100 0)
  else if p = "/proc/bus/pci/00/11.0" then some (config_image 0x0200 0)
  else if p = "/proc/bus/pci/00/1f.0" then some (config_image 0x0604 1)
  else if p = "/proc/bus/pci/00/1d.0" then some (config_image 0x0604 0)
  else none

/-- The files of a machine whose host bridge answers on bus 0x100. -/
def wide_bus_files : String → Option (List Nat) := fun p =>
  if p = "/proc/bus/pci/100/00.0" then some (config_image 0x0600 0) else none

/-- Whether the class word read for a line is the PCI-to-PCI bridge class. -/
def is_pci_bridge (config : String → Option (List Nat)) (l : Line) : Bool :=
  decide (get_conf_word (read_dev config l) PCI_CLASS_DEVICE = some PCI_CLASS_BRIDGE_PCI)

/-- The host `h` has at index `i` a direct child named `pci` that carries the
handle `hs`, no direct child before it carries that handle, and the nodes `X`
are among the children of that child. -/
def keyedAt (hs : String) (i : Nat) (X : List hwNode) (h : hwNode) : Prop :=
  ∃ b, h.children[i]? = some b ∧ b.handle = hs ∧ b.name = "pci"
    ∧ (∀ x ∈ X, x ∈ b.children)
    ∧ ∀ j c, j < i → h.children[j]? = some c → c.handle ≠ hs

/-- The path `devicepath` of the config file the loop of `scan_pci` opens for
a line: `/proc/bus/pci/` followed by `%02x/%02x.%x` of bus, device, function. -/
def devicepath_of (l : Line) : String :=
  let dfn := l.dfn % 4294967296
  let bus := (dfn >>> 8) % 65536
  let dev := PCI_SLOT (dfn &&& 0xff) % 256
  let func := PCI_FUNC (dfn &&& 0xff) % 256
  PROC_BUS_PCI ++ "/" ++ String.mk
    (snprintf 20 (fmt_x 2 bus ++ ['/'] ++ fmt_x 2 dev ++ ['.'] ++ fmt_x 1 func))

mutual
/-- Number of levels below a node: 0 for a node without children. -/
def hwNode.height : hwNode → Nat
  | ⟨_, _, _, _, cs⟩ => heightList cs
/-- One more than the largest height in a list of children, 0 for no child. -/
def heightList : List hwNode → Nat
  | [] => 0
  | c :: cs => max (c.height + 1) (heightList cs)
end

/-- Every child of a direct child of `h` is a node without children. -/
def flatBelow (h : hwNode) : Prop :=
  ∀ c ∈ h.children, ∀ g ∈ c.children, g.children = []

mutual
/-- Number of nodes of a subtree that are named `pci` and of kind bridge. -/
def hwNode.countPci : hwNode → Nat
  | ⟨nm, k, _, _, cs⟩ => (if nm = "pci" ∧ k = hwClass.bridge then 1 else 0) + countPciList cs
/-- Number of nodes of a forest that are named `pci` and of kind bridge. -/
def countPciList : List hwNode → Nat
  | [] => 0
  | c :: cs => c.countPci + countPciList cs
end

/-! ## The handle formatter of the specification -/

/-- The `hex(v, w)` of the specification: the lowercase hexadecimal numeral of
`v`, as the library function `Nat.toDigits 16` writes it, padded on the left
with `0` to at least `w` digits. -/
def hex_spec (v w : Nat) : List Char := List.leftpad w '0' (Nat.toDigits 16 v)

/-- The `bus_handle(bus)` of the specification: `"PCIBUS:" + hex(bus, 2)`. -/
def bus_handle_spec (bus : Nat) : String := "PCIBUS:" ++ String.mk (hex_spec bus 2)

/-- The `function_handle(bus, dev, func)` of the specification:
`"PCI:" + hex(bus,2) + ":" + hex(dev,2) + "." + hex(func,1)`. -/
def function_handle_spec (bus dev func : Nat) : String :=
  "PCI:" ++ String.mk (hex_spec bus 2) ++ ":" ++ String.mk (hex_spec dev 2) ++ "."
    ++ String.mk (hex_spec func 1)

/-! ## Reading a function handle back -/

/-- The value of a lowercase hexadecimal digit, if the character is one. -/
def hexValue (c : Char) : Option Nat :=
  if 48 ≤ c.toNat ∧ c.toNat ≤ 57 then some (c.toNat - 48)
  else if 97 ≤ c.toNat ∧ c.toNat ≤ 102 then some (c.toNat - 87)
  else none

/-- The number read from hexadecimal digits, most significant first, after
the value `acc` of the digits already read. -/
def readHexFrom : Nat → List Char → Option Nat
  | acc, [] => some acc
  | acc, c :: cs =>
    match hexValue c with
    | some d => readHexFrom (16 * acc + d) cs
    | none => none

/-- A field read as a hexadecimal number; an empty field is no number. -/
def readHex (cs : List Char) : Option Nat :=
  match cs with
  | [] => none
  | _ :: _ => readHexFrom 0 cs

/-- The text before and the text after the first occurrence of `sep`. -/
def splitAtChar (sep : Char) : List Char → Option (List Char × List Char)
  | [] => none
  | c :: cs =>
    if c = sep then some ([], cs)
    else
      match splitAtChar sep cs with
      | some p => some (c :: p.1, p.2)
      | none => none

/-- The parse of a function handle in the words of the specification: strip
the prefix `PCI:`, split the rest at `:` and at `.`, and read the three fields
as hexadecimal numbers. -/
def parse_function_handle (s : String) : Option (Nat × Nat × Nat) :=
  if s.data.take 4 = ['P', 'C', 'I', ':'] then
    match splitAtChar ':' (s.data.drop 4) with
    | none => none
    | some (b, r) =>
      match splitAtChar '.' r with
      | none => none
      | some (d, f) =>
        match readHex b, readHex d, readHex f with
        | some bus, some dev, some func => some (bus, dev, func)
        | _, _, _ => none
  else none

/-! ## Properties -/

theorem shr8 (c : Nat) : c >>> 8 = c / 256 := by
  rw [Nat.shiftRight_eq_div_pow]

theorem get_class_description_eq (c : Nat) :
    get_class_description c = class_description_spec c := by
  by_cases h0 : c = 1
  · subst h0; rfl
  by_cases h1 : c = 256
  · subst h1; rfl
  by_cases h2 : c = 257
  · subst h2; rfl
  by_cases h3 : c = 258
  · subst h3; rfl
  by_cases h4 : c = 259
  · subst h4; rfl
  by_cases h5 : c = 260
  · subst h5; rfl
  by_cases h6 : c = 512
  · subst h6; rfl
  by_cases h7 : c = 513
  · subst h7; rfl
  by_cases h8 : c = 514
  · subst h8; rfl
  by_cases h9 : c = 515
  · subst h9; rfl
  by_cases h10 : c = 1536
  · subst h10; rfl
  by_cases h11 : c = 1537
  · subst h11; rfl
  by_cases h12 : c = 1538
  · subst h12; rfl
  by_cases h13 : c = 1539
  · subst h13; rfl
  by_cases h14 : c = 1540
  · subst h14; rfl
  by_cases h15 : c = 1541
  · subst h15; rfl
  by_cases h16 : c = 1542
  · subst h16; rfl
  by_cases h17 : c = 1543
  · subst h17; rfl
  simp only [get_class_description, class_description_spec, class_descriptions, lookupCode,
    if_neg h0, if_neg h1, if_neg h2, if_neg h3, if_neg h4, if_neg h5, if_neg h6, if_neg h7, if_neg h8, if_neg h9, if_neg h10, if_neg h11, if_neg h12, if_neg h13, if_neg h14, if_neg h15, if_neg h16, if_neg h17]

/-- C5: for every 16-bit code `get_class_name` returns the name the registry of
the specification gives (override of the full code, else tag of the high byte,
else `"generic"`), and that name is never empty. -/
theorem get_class_name_table (c : Nat) (hc : c ≤ 0xFFFF) :
    get_class_name c = class_name_spec c ∧ get_class_name c ≠ "" := by
  have hb : c / 256 % 256 = c / 256 := Nat.mod_eq_of_lt (by omega)
  by_cases h0 : c = 1
  · subst h0; exact ⟨rfl, by decide⟩
  by_cases h1 : c = 256
  · subst h1; exact ⟨rfl, by decide⟩
  by_cases h2 : c = 257
  · subst h2; exact ⟨rfl, by decide⟩
  by_cases h3 : c = 1536
  · subst h3; exact ⟨rfl, by decide⟩
  by_cases h4 : c = 1537
  · subst h4; exact ⟨rfl, by decide⟩
  by_cases h5 : c = 1538
  · subst h5; exact ⟨rfl, by decide⟩
  by_cases h6 : c = 1539
  · subst h6; exact ⟨rfl, by decide⟩
  by_cases h7 : c = 1540
  · subst h7; exact ⟨rfl, by decide⟩
  by_cases h8 : c = 1541
  · subst h8; exact ⟨rfl, by decide⟩
  by_cases h9 : c = 1542
  · subst h9; exact ⟨rfl, by decide⟩
  by_cases h10 : c = 1543
  · subst h10; exact ⟨rfl, by decide⟩
  by_cases h11 : c = 3072
  · subst h11; exact ⟨rfl, by decide⟩
  by_cases h12 : c = 3075
  · subst h12; exact ⟨rfl, by decide⟩
  by_cases h13 : c = 3076
  · subst h13; exact ⟨rfl, by decide⟩
  simp only [get_class_name, class_name_spec, class_name_overrides, base_class_names,
    lookupCode, shr8, hb,
    if_neg h0, if_neg h1, if_neg h2, if_neg h3, if_neg h4, if_neg h5, if_neg h6, if_neg h7, if_neg h8, if_neg h9, if_neg h10, if_neg h11, if_neg h12, if_neg h13]
  generalize c / 256 = b
  by_cases g0 : b = 1
  · subst g0; exact ⟨rfl, by decide⟩
  by_cases g1 : b = 2
  · subst g1; exact ⟨rfl, by decide⟩
  by_cases g2 : b = 3
  · subst g2; exact ⟨rfl, by decide⟩
  by_cases g3 : b = 4
  · subst g3; exact ⟨rfl, by decide⟩
  by_cases g4 : b = 5
  · subst g4; exact ⟨rfl, by decide⟩
  by_cases g5 : b = 6
  · subst g5; exact ⟨rfl, by decide⟩
  by_cases g6 : b = 7
  · subst g6; exact ⟨rfl, by decide⟩
  by_cases g7 : b = 8
  · subst g7; exact ⟨rfl, by decide⟩
  by_cases g8 : b = 9
  · subst g8; exact ⟨rfl, by decide⟩
  by_cases g9 : b = 10
  · subst g9; exact ⟨rfl, by decide⟩
  by_cases g10 : b = 11
  · subst g10; exact ⟨rfl, by decide⟩
  by_cases g11 : b = 12
  · subst g11; exact ⟨rfl, by decide⟩
  simp only [if_neg g0, if_neg g1, if_neg g2, if_neg g3, if_neg g4, if_neg g5, if_neg g6, if_neg g7, if_neg g8, if_neg g9, if_neg g10, if_neg g11]
  exact ⟨trivial, by decide⟩

theorem get_class_name_table_witness :
    (0x0c03 : Nat) ≤ 0xFFFF ∧ get_class_name 0x0c03 = class_name_spec 0x0c03
    ∧ get_class_name 0x0c03 = "usb" :=
  ⟨by decide, (get_class_name_table 0x0c03 (by decide)).1, by decide⟩

/-- C6: for every code `get_class_description` returns the description of the
table of the specification and the empty string for a code the table does not
list, such as 0x0c00, 0x0c03, 0x0c04 and 0x1234. -/
theorem get_class_description_table (c : Nat) :
    get_class_description c = class_description_spec c
    ∧ lookupCode 0x0c00 class_descriptions = none ∧ get_class_description 0x0c00 = ""
    ∧ lookupCode 0x0c03 class_descriptions = none ∧ get_class_description 0x0c03 = ""
    ∧ lookupCode 0x0c04 class_descriptions = none ∧ get_class_description 0x0c04 = ""
    ∧ lookupCode 0x1234 class_descriptions = none ∧ get_class_description 0x1234 = "" :=
  ⟨get_class_description_eq c, by decide, by decide, by decide, by decide, by decide,
    by decide, by decide, by decide⟩

theorem deviceclass_of_table (c : Nat) :
    deviceclass_of c = kind_of_base_class (c / 256) := by
  simp only [deviceclass_of, kind_of_base_class, base_class_kinds, lookupCode, shr8]
  generalize c / 256 = b
  by_cases g0 : b = 1
  · subst g0; rfl
  by_cases g1 : b = 2
  · subst g1; rfl
  by_cases g2 : b = 3
  · subst g2; rfl
  by_cases g3 : b = 4
  · subst g3; rfl
  by_cases g4 : b = 5
  · subst g4; rfl
  by_cases g5 : b = 6
  · subst g5; rfl
  by_cases g6 : b = 7
  · subst g6; rfl
  by_cases g7 : b = 8
  · subst g7; rfl
  by_cases g8 : b = 9
  · subst g8; rfl
  by_cases g9 : b = 11
  · subst g9; rfl
  by_cases g10 : b = 12
  · subst g10; rfl
  simp only [if_neg g0, if_neg g1, if_neg g2, if_neg g3, if_neg g4, if_neg g5, if_neg g6, if_neg g7, if_neg g8, if_neg g9, if_neg g10]

/-! ### Config-space decoder -/

theorem word_of_bytes (lo hi : Nat) (hlo : lo < 256) (hhi : hi < 256) :
    (lo ||| (hi <<< 8)) % 65536 = lo + 256 * hi := by
  have h1 : hi <<< 8 = 2 ^ 8 * hi := by rw [Nat.shiftLeft_eq, Nat.mul_comm]
  have h2 : 2 ^ 8 * hi + lo = 2 ^ 8 * hi ||| lo :=
    Nat.mul_add_lt_is_or (show lo < 2 ^ 8 from hlo) hi
  rw [Nat.or_comm, h1, ← h2]
  omega

theorem getElem?_eq_getD (l : List Nat) (i : Nat) (h : i < l.length) :
    l[i]? = some (l.getD i 0) := by
  simp [List.getD, List.getElem?_eq_getElem h]

theorem getD_lt_of_all (l : List Nat) (hb : ∀ b ∈ l, b < 256) (i : Nat) :
    l.getD i 0 < 256 := by
  by_cases h : i < l.length
  · have : l.getD i 0 = l[i] := by simp [List.getD, List.getElem?_eq_getElem h]
    rw [this]
    exact hb _ (List.getElem_mem h)
  · simp [List.getD, List.getElem?_eq_none (Nat.le_of_not_lt h)]

theorem get_conf_word_inside (d : pci_dev) (hl : d.config.length = 256)
    (hb : ∀ b ∈ d.config, b < 256) (pos : Nat) (hp : pos < 255) :
    get_conf_word d pos = some (d.config.getD pos 0 + 256 * d.config.getD (pos + 1) 0) := by
  unfold get_conf_word
  rw [if_neg (by omega), getElem?_eq_getD _ _ (by omega), getElem?_eq_getD _ _ (by omega)]
  simp only
  rw [word_of_bytes _ _ (getD_lt_of_all _ hb _) (getD_lt_of_all _ hb _)]

theorem get_conf_word_outside (d : pci_dev) (pos : Nat) (hp : 256 < pos) :
    get_conf_word d pos = some 0 := by
  unfold get_conf_word
  rw [if_pos hp]

theorem get_conf_byte_inside (d : pci_dev) (hl : d.config.length = 256)
    (hb : ∀ b ∈ d.config, b < 256) (pos : Nat) (hp : pos < 256) :
    get_conf_byte d pos = some (d.config.getD pos 0) := by
  unfold get_conf_byte
  rw [if_neg (by omega), getElem?_eq_getD _ _ (by omega)]
  simp only
  rw [Nat.mod_eq_of_lt (getD_lt_of_all _ hb _)]

/-- C8: on a 256-byte config image `get_conf_word` gives the little-endian word
`config[pos] + 256 * config[pos+1]` for every `pos < 255`, but at `pos = 256`
(and at `pos = 255`) the guard `pos > sizeof(d.config)` lets the access
through and a byte outside the image is indexed: the result is not `0`. -/
theorem get_conf_word_guard_off_by_one (d : pci_dev) (hl : d.config.length = 256)
    (hb : ∀ b ∈ d.config, b < 256) :
    (∀ pos, pos < 255 →
      get_conf_word d pos = some (d.config.getD pos 0 + 256 * d.config.getD (pos + 1) 0))
    ∧ get_conf_word d 255 = none ∧ get_conf_word d 256 = none
    ∧ get_conf_word d 256 ≠ some 0 := by
  have h255 : d.config[255 + 1]? = none := List.getElem?_eq_none (by omega)
  have h256 : d.config[256]? = none := List.getElem?_eq_none (by omega)
  have e255 : get_conf_word d 255 = none := by
    unfold get_conf_word
    rw [if_neg (by omega), h255]
    cases d.config[255]? <;> rfl
  have e256 : get_conf_word d 256 = none := by
    unfold get_conf_word
    rw [if_neg (by omega), h256]
  refine ⟨fun pos hp => get_conf_word_inside d hl hb pos hp, e255, e256, ?_⟩
  rw [e256]
  exact fun h => Option.noConfusion h

theorem get_conf_word_guard_off_by_one_witness :
    (sample_dev 1 2).config.length = 256 ∧ (∀ b ∈ (sample_dev 1 2).config, b < 256)
    ∧ get_conf_word (sample_dev 1 2) 256 = none := by
  refine ⟨by decide, by decide, ?_⟩
  exact (get_conf_word_guard_off_by_one (sample_dev 1 2) (by decide) (by decide)).2.2.1

/-- C9: on a 256-byte config image `get_conf_byte` gives `config[pos]` for every
`pos < 256` and `0` for every `pos > 256`, but at `pos = 256` the guard
`pos > sizeof(d.config)` lets the access through and the byte after the image
is indexed: the result is not `0`. -/
theorem get_conf_byte_guard_off_by_one (d : pci_dev) (hl : d.config.length = 256)
    (hb : ∀ b ∈ d.config, b < 256) :
    (∀ pos, pos < 256 → get_conf_byte d pos = some (d.config.getD pos 0))
    ∧ (∀ pos, 256 < pos → get_conf_byte d pos = some 0)
    ∧ get_conf_byte d 256 = none ∧ get_conf_byte d 256 ≠ some 0 := by
  have h256 : d.config[256]? = none := List.getElem?_eq_none (by omega)
  have e256 : get_conf_byte d 256 = none := by
    unfold get_conf_byte
    rw [if_neg (by omega), h256]
  refine ⟨fun pos hp => get_conf_byte_inside d hl hb pos hp, ?_, e256, ?_⟩
  · intro pos hp
    unfold get_conf_byte
    rw [if_pos hp]
  · rw [e256]
    exact fun h => Option.noConfusion h

theorem get_conf_byte_guard_off_by_one_witness :
    (sample_dev 1 2).config.length = 256 ∧ (∀ b ∈ (sample_dev 1 2).config, b < 256)
    ∧ get_conf_byte (sample_dev 1 2) 256 = none := by
  refine ⟨by decide, by decide, ?_⟩
  exact (get_conf_byte_guard_off_by_one (sample_dev 1 2) (by decide) (by decide)).2.2.1

/-- C10, as stated, fails at `pos = 254`: on the image whose last two bytes are
`01 02` the word read there is `0x0201`, not `0`. -/
theorem get_conf_word_at_254_not_zero :
    (sample_dev 1 2).config.length = 256 ∧ 254 ≥ 254
    ∧ get_conf_word (sample_dev 1 2) 254 = some 0x0201
    ∧ get_conf_word (sample_dev 1 2) 254 ≠ some 0 := by
  decide

/-- C10, amended: on a 256-byte config image `get_conf_word` returns `0` without
indexing the image for every `pos > 256`, and at `pos = 254` it returns the
little-endian word of the bytes 254 and 255, both inside the image. -/
theorem get_conf_word_tail (d : pci_dev) (hl : d.config.length = 256)
    (hb : ∀ b ∈ d.config, b < 256) :
    (∀ pos, 256 < pos → get_conf_word d pos = some 0)
    ∧ get_conf_word d 254 = some (d.config.getD 254 0 + 256 * d.config.getD 255 0) :=
  ⟨fun pos hp => get_conf_word_outside d pos hp,
   get_conf_word_inside d hl hb 254 (by omega)⟩

theorem get_conf_word_tail_witness :
    (sample_dev 1 2).config.length = 256 ∧ (∀ b ∈ (sample_dev 1 2).config, b < 256)
    ∧ get_conf_word (sample_dev 1 2) 300 = some 0 := by
  refine ⟨by decide, by decide, ?_⟩
  exact (get_conf_word_tail (sample_dev 1 2) (by decide) (by decide)).1 300 (by decide)


/-! ### The loop of `scan_pci` -/

theorem read_config_length (file : Option (List Nat)) : (read_config file).length = 256 := by
  cases file with
  | none => simp [read_config]
  | some bytes =>
    simp only [read_config, List.length_append, List.length_map, List.length_replicate,
      List.length_take]
    omega

theorem read_config_lt (file : Option (List Nat)) : ∀ b ∈ read_config file, b < 256 := by
  intro b hb
  cases file with
  | none =>
    simp only [read_config] at hb
    have := List.eq_of_mem_replicate hb
    omega
  | some bytes =>
    simp only [read_config, List.mem_append, List.mem_map] at hb
    rcases hb with ⟨a, _, rfl⟩ | hb
    · exact Nat.mod_lt _ (by norm_num)
    · have := List.eq_of_mem_replicate hb
      omega

theorem read_dev_config_length (config : String → Option (List Nat)) (l : Line) :
    (read_dev config l).config.length = 256 :=
  read_config_length _

theorem read_dev_config_lt (config : String → Option (List Nat)) (l : Line) :
    ∀ b ∈ (read_dev config l).config, b < 256 :=
  read_config_lt _

theorem get_conf_word_lt (d : pci_dev) (pos w : Nat) (h : get_conf_word d pos = some w) :
    w < 65536 := by
  unfold get_conf_word at h
  split_ifs at h
  · cases h; norm_num
  · split at h
    · cases h; exact Nat.mod_lt _ (by norm_num)
    · cases h

theorem dclass_of_eq (config : String → Option (List Nat)) (l : Line) :
    get_conf_word (read_dev config l) PCI_CLASS_DEVICE = some (dclass_of config l) := by
  unfold dclass_of
  rw [get_conf_word_inside _ (read_dev_config_length config l) (read_dev_config_lt config l)
    PCI_CLASS_DEVICE (by norm_num)]
  rfl

theorem dclass_of_lt (config : String → Option (List Nat)) (l : Line) :
    dclass_of config l < 65536 :=
  get_conf_word_lt _ _ _ (dclass_of_eq config l)

theorem secondary_bus_eq (config : String → Option (List Nat)) (l : Line) :
    get_conf_byte (read_dev config l) PCI_SECONDARY_BUS
      = some ((read_dev config l).config.getD PCI_SECONDARY_BUS 0) :=
  get_conf_byte_inside _ (read_dev_config_length config l) (read_dev_config_lt config l)
    PCI_SECONDARY_BUS (by norm_num)

theorem new_device_eq (config : String → Option (List Nat)) (l : Line) (dclass : Nat) :
    new_device (read_dev config l) dclass = some
      { name := get_class_name dclass, kind := deviceclass_of dclass,
        description := get_class_description dclass,
        handle := if dclass = PCI_CLASS_BRIDGE_PCI
          then pci_bushandle ((read_dev config l).config.getD PCI_SECONDARY_BUS 0)
          else pci_handle (read_dev config l).bus (read_dev config l).dev (read_dev config l).func,
        children := [] } := by
  unfold new_device
  by_cases h : dclass = PCI_CLASS_BRIDGE_PCI
  · simp only [if_pos h, secondary_bus_eq]
    rfl
  · simp only [if_neg h]
    rfl

theorem device_of_eq (config : String → Option (List Nat)) (l : Line) :
    new_device (read_dev config l) (dclass_of config l) = some (device_of config l) := by
  unfold device_of
  rw [new_device_eq]
  rfl

theorem scan_line_eq (config : String → Option (List Nat)) (host : hwNode) (l : Line) :
    scan_line config host l = some
      (if dclass_of config l = PCI_CLASS_BRIDGE_HOST then
        (host.setDescription (get_class_description (dclass_of config l))).setHandle
          (pci_bushandle (read_dev config l).bus)
      else attach host (read_dev config l) (device_of config l)) := by
  unfold scan_line
  simp only [dclass_of_eq, device_of_eq]
  split_ifs <;> rfl

theorem scan_line_step (config : String → Option (List Nat)) (host : hwNode) (l : Line) :
    scan_line config host l = some (step config host l) := by
  unfold step
  rw [scan_line_eq]
  rfl

theorem step_eq (config : String → Option (List Nat)) (host : hwNode) (l : Line) :
    step config host l =
      if dclass_of config l = PCI_CLASS_BRIDGE_HOST then
        (host.setDescription (get_class_description (dclass_of config l))).setHandle
          (pci_bushandle (read_dev config l).bus)
      else attach host (read_dev config l) (device_of config l) := by
  unfold step
  rw [scan_line_eq]
  rfl

theorem valid_count_iff (l : Line) :
    valid_count l = true ↔ ¬ (l.cnt ≠ 9 ∧ l.cnt ≠ 10 ∧ l.cnt ≠ 17 ∧ l.cnt ≠ 18) := by
  simp only [valid_count, Bool.or_eq_true, decide_eq_true_eq]
  omega

theorem scan_lines_eq (config : String → Option (List Nat)) (lines : List Line) :
    ∀ host, scan_lines config lines host
      = some ((lines.takeWhile valid_count).foldl (step config) host) := by
  induction lines with
  | nil => intro host; rfl
  | cons l ls ih =>
    intro host
    unfold scan_lines
    by_cases hv : valid_count l = true
    · rw [if_neg ((valid_count_iff l).1 hv), scan_line_step]
      simp only [List.takeWhile_cons, hv, if_true, List.foldl_cons]
      exact ih _
    · have hb : l.cnt ≠ 9 ∧ l.cnt ≠ 10 ∧ l.cnt ≠ 17 ∧ l.cnt ≠ 18 := by
        by_contra hc
        exact hv ((valid_count_iff l).2 hc)
      rw [if_pos hb]
      simp [List.takeWhile_cons, hv]

theorem takeWhile_all (lines : List Line) (hv : ∀ l ∈ lines, valid_count l = true) :
    lines.takeWhile valid_count = lines := by
  induction lines with
  | nil => rfl
  | cons l ls ih =>
    rw [List.takeWhile_cons, hv l (List.mem_cons_self _ _)]
    simp only [if_true]
    rw [ih (fun x hx => hv x (List.mem_cons_of_mem _ hx))]

/-! ### Size of the host subtree -/

theorem size_eq (n : hwNode) : n.size = 1 + sizeList n.children := by
  cases n; rfl

theorem sizeList_append (a b : List hwNode) :
    sizeList (a ++ b) = sizeList a + sizeList b := by
  induction a with
  | nil => simp [sizeList]
  | cons c cs ih =>
    show c.size + sizeList (cs ++ b) = c.size + sizeList cs + sizeList b
    rw [ih]
    omega

theorem size_addChild (n c : hwNode) : (n.addChild c).size = n.size + c.size := by
  rw [size_eq, size_eq n]
  simp only [hwNode.addChild, sizeList_append, sizeList]
  omega

theorem firstByHandle_lt (h : String) (cs : List hwNode) :
    ∀ i, firstByHandle h cs = some i → i < cs.length := by
  induction cs with
  | nil => intro i hi; cases hi
  | cons c cs ih =>
    intro i hi
    unfold firstByHandle at hi
    split_ifs at hi
    · cases hi; simp
    · cases hj : firstByHandle h cs with
      | none => rw [hj] at hi; cases hi
      | some j =>
        rw [hj] at hi
        cases hi
        have := ih j hj
        simp only [List.length_cons]
        omega

theorem sizeList_modifyAt (c : hwNode) (cs : List hwNode) :
    ∀ i, i < cs.length →
      sizeList (modifyAt (fun b => b.addChild c) i cs) = sizeList cs + c.size := by
  induction cs with
  | nil => intro i hi; cases hi
  | cons x xs ih =>
    intro i hi
    cases i with
    | zero => simp only [modifyAt, sizeList, size_addChild]; omega
    | succ j =>
      simp only [modifyAt, sizeList]
      rw [ih j (by simpa using hi)]
      omega

theorem size_attach (host : hwNode) (d : pci_dev) (device : hwNode) :
    (attach host d device).size = host.size + device.size := by
  unfold attach
  cases hf : host.findChildByHandle (pci_bushandle d.bus) with
  | none => exact size_addChild host device
  | some i =>
    have hi : i < host.children.length := firstByHandle_lt _ _ i hf
    rw [size_eq, size_eq host]
    simp only [hwNode.atChild]
    rw [sizeList_modifyAt device host.children i hi]
    omega

theorem device_of_shape (config : String → Option (List Nat)) (l : Line) :
    device_of config l =
      { name := get_class_name (dclass_of config l),
        kind := deviceclass_of (dclass_of config l),
        description := get_class_description (dclass_of config l),
        handle := if dclass_of config l = PCI_CLASS_BRIDGE_PCI
          then pci_bushandle ((read_dev config l).config.getD PCI_SECONDARY_BUS 0)
          else pci_handle (read_dev config l).bus (read_dev config l).dev (read_dev config l).func,
        children := [] } := by
  have h := device_of_eq config l
  rw [new_device_eq] at h
  exact (Option.some.inj h).symm

theorem size_device_of (config : String → Option (List Nat)) (l : Line) :
    (device_of config l).size = 1 := by
  rw [device_of_shape]
  rfl

theorem not_host_bridge_iff (config : String → Option (List Nat)) (l : Line) :
    not_host_bridge config l = true ↔ dclass_of config l ≠ PCI_CLASS_BRIDGE_HOST := by
  unfold not_host_bridge
  rw [dclass_of_eq]
  simp

theorem size_step (config : String → Option (List Nat)) (host : hwNode) (l : Line) :
    (step config host l).size
      = host.size + (if not_host_bridge config l = true then 1 else 0) := by
  rw [step_eq]
  by_cases h : dclass_of config l = PCI_CLASS_BRIDGE_HOST
  · rw [if_pos h, if_neg (by rw [not_host_bridge_iff]; exact fun hn => hn h)]
    rw [size_eq, size_eq host]
    rfl
  · rw [if_neg h, if_pos ((not_host_bridge_iff config l).2 h), size_attach, size_device_of]

theorem size_foldl_step (config : String → Option (List Nat)) (lines : List Line) :
    ∀ host, (lines.foldl (step config) host).size
      = host.size + (lines.filter (not_host_bridge config)).length := by
  induction lines with
  | nil => intro host; rfl
  | cons l ls ih =>
    intro host
    rw [List.foldl_cons, ih, size_step, List.filter_cons]
    by_cases h : not_host_bridge config l = true
    · rw [if_pos h, if_pos h, List.length_cons]
      omega
    · rw [if_neg h, if_neg h]
      omega

/-- C2: when every line of the device table has a valid field count (9, 10, 17
or 18) the scan returns a host subtree whose number of nodes is one (the host
node) plus the number of records whose class word is not 0x0600: one node per
such record and none for a host-bridge record. -/
theorem scan_host_node_count (config : String → Option (List Nat)) (lines : List Line)
    (hv : ∀ l ∈ lines, l.cnt = 9 ∨ l.cnt = 10 ∨ l.cnt = 17 ∨ l.cnt = 18) :
    ∃ host, scan_host config lines = some host
      ∧ host.size = 1 + (lines.filter (fun l =>
          decide (get_conf_word (read_dev config l) PCI_CLASS_DEVICE
            ≠ some PCI_CLASS_BRIDGE_HOST))).length := by
  have hv2 : ∀ l ∈ lines, valid_count l = true := by
    intro l hl
    rw [valid_count_iff]
    have := hv l hl
    omega
  refine ⟨_, scan_lines_eq config lines host_init, ?_⟩
  rw [takeWhile_all lines hv2, size_foldl_step]
  rfl

theorem scan_host_node_count_witness :
    (∀ l ∈ [sample_line 0, sample_line 0xf0, sample_line 0x100, sample_line 0x200],
      l.cnt = 9 ∨ l.cnt = 10 ∨ l.cnt = 17 ∨ l.cnt = 18)
    ∧ ∃ host, scan_host sample_files
        [sample_line 0, sample_line 0xf0, sample_line 0x100, sample_line 0x200] = some host
      ∧ host.size = 1 + 3 := by
  refine ⟨by decide, ?_⟩
  obtain ⟨host, h1, h2⟩ := scan_host_node_count sample_files
    [sample_line 0, sample_line 0xf0, sample_line 0x100, sample_line 0x200] (by decide)
  exact ⟨host, h1, by rw [h2]; decide⟩

/-- C7: for every record whose class word `dclass` is not 0x0600 the loop body
creates a node and attaches it, and the kind of that node is the one the table
of the specification gives for the high byte of `dclass` (generic for every
high byte the table does not list). -/
theorem scan_line_device_kind (config : String → Option (List Nat)) (host : hwNode)
    (l : Line) (dclass : Nat)
    (hc : get_conf_word (read_dev config l) PCI_CLASS_DEVICE = some dclass)
    (hne : dclass ≠ PCI_CLASS_BRIDGE_HOST) :
    dclass < 65536 ∧ ∃ device, new_device (read_dev config l) dclass = some device
      ∧ scan_line config host l = some (attach host (read_dev config l) device)
      ∧ device.kind = kind_of_base_class (dclass / 256) := by
  have hd : dclass_of config l = dclass := by
    have := dclass_of_eq config l
    rw [hc] at this
    exact (Option.some.inj this).symm
  subst hd
  refine ⟨dclass_of_lt config l, device_of config l, device_of_eq config l, ?_, ?_⟩
  · rw [scan_line_eq, if_neg hne]
  · rw [device_of_shape]
    exact deviceclass_of_table _

theorem scan_line_device_kind_witness :
    get_conf_word (read_dev sample_files (sample_line 0x88)) PCI_CLASS_DEVICE = some 0x0200
    ∧ (0x0200 : Nat) ≠ PCI_CLASS_BRIDGE_HOST
    ∧ ∃ device, new_device (read_dev sample_files (sample_line 0x88)) 0x0200 = some device
      ∧ device.kind = hwClass.network := by
  refine ⟨by decide, by decide, ?_⟩
  obtain ⟨_, device, h1, _, h3⟩ := scan_line_device_kind sample_files host_init
    (sample_line 0x88) 0x0200 (by decide) (by decide)
  exact ⟨device, h1, by rw [h3]; decide⟩

/-! ### Hexadecimal numerals -/

theorem hexDigit_lower (n : Nat) (hn : n < 16) : isLowerHex (hexDigit n) = true := by
  interval_cases n <;> decide

theorem hexCore_acc (fuel : Nat) : ∀ n acc, hexCore fuel n acc = hexCore fuel n [] ++ acc := by
  induction fuel with
  | zero => intro n acc; rfl
  | succ f ih =>
    intro n acc
    unfold hexCore
    by_cases h : n < 16
    · simp only [if_pos h]; rfl
    · simp only [if_neg h]
      rw [ih (n / 16) (hexDigit (n % 16) :: acc), ih (n / 16) [hexDigit (n % 16)]]
      simp

theorem hexCore_fuel (fuel : Nat) :
    ∀ n acc fuel2, n ≤ fuel → n ≤ fuel2 → hexCore fuel n acc = hexCore fuel2 n acc := by
  induction fuel with
  | zero =>
    intro n acc fuel2 h1 _
    have hn : n = 0 := by omega
    subst hn
    cases fuel2 <;> rfl
  | succ f ih =>
    intro n acc fuel2 h1 h2
    cases fuel2 with
    | zero =>
      have hn : n = 0 := by omega
      subst hn
      rfl
    | succ g =>
      unfold hexCore
      by_cases h : n < 16
      · simp only [if_pos h]
      · simp only [if_neg h]
        exact ih _ _ _ (by omega) (by omega)

theorem toHex_small (n : Nat) (hn : n < 16) : toHex n = [hexDigit n] := by
  unfold toHex
  cases n with
  | zero => rfl
  | succ m => unfold hexCore; rw [if_pos hn]

theorem toHex_step (n : Nat) (hn : 16 ≤ n) :
    toHex n = toHex (n / 16) ++ [hexDigit (n % 16)] := by
  unfold toHex
  cases n with
  | zero => omega
  | succ m =>
    conv_lhs => unfold hexCore
    rw [if_neg (by omega), hexCore_acc]
    rw [hexCore_fuel m ((m + 1) / 16) [] ((m + 1) / 16) (by omega) (Nat.le_refl _)]

theorem fmt_x_byte (v : Nat) (hv : v < 256) :
    fmt_x 2 v = [hexDigit (v / 16), hexDigit (v % 16)] := by
  unfold fmt_x
  by_cases h : v < 16
  · rw [toHex_small v h]
    have h0 : v / 16 = 0 := by omega
    have h1 : v % 16 = v := by omega
    rw [h0, h1]
    rfl
  · rw [toHex_step v (by omega), toHex_small (v / 16) (by omega)]
    rfl

theorem fmt_x_nibble (v : Nat) (hv : v < 16) : fmt_x 1 v = [hexDigit v] := by
  unfold fmt_x
  rw [toHex_small v hv]
  rfl

theorem fmt_x_word (v : Nat) (hv : v < 65536) :
    2 ≤ (fmt_x 2 v).length ∧ (fmt_x 2 v).length ≤ 4
      ∧ ∀ c ∈ fmt_x 2 v, isLowerHex c = true := by
  by_cases h1 : v < 256
  · rw [fmt_x_byte v h1]
    refine ⟨by simp, by simp, ?_⟩
    intro c hc
    simp only [List.mem_cons, List.mem_singleton, List.not_mem_nil, or_false] at hc
    rcases hc with rfl | rfl
    · exact hexDigit_lower _ (by omega)
    · exact hexDigit_lower _ (by omega)
  · have e1 : toHex (v / 16) = toHex (v / 16 / 16) ++ [hexDigit (v / 16 % 16)] :=
      toHex_step _ (by omega)
    by_cases h2 : v < 4096
    · have e : fmt_x 2 v
          = [hexDigit (v / 16 / 16), hexDigit (v / 16 % 16), hexDigit (v % 16)] := by
        unfold fmt_x
        rw [toHex_step v (by omega), e1, toHex_small (v / 16 / 16) (by omega)]
        rfl
      rw [e]
      refine ⟨by simp, by simp, ?_⟩
      intro c hc
      simp only [List.mem_cons, List.mem_singleton, List.not_mem_nil, or_false] at hc
      rcases hc with rfl | rfl | rfl
      · exact hexDigit_lower _ (by omega)
      · exact hexDigit_lower _ (by omega)
      · exact hexDigit_lower _ (by omega)
    · have e : fmt_x 2 v
          = [hexDigit (v / 16 / 16 / 16), hexDigit (v / 16 / 16 % 16),
              hexDigit (v / 16 % 16), hexDigit (v % 16)] := by
        unfold fmt_x
        rw [toHex_step v (by omega), e1, toHex_step (v / 16 / 16) (by omega),
          toHex_small (v / 16 / 16 / 16) (by omega)]
        rfl
      rw [e]
      refine ⟨by simp, by simp, ?_⟩
      intro c hc
      simp only [List.mem_cons, List.mem_singleton, List.not_mem_nil, or_false] at hc
      rcases hc with rfl | rfl | rfl | rfl
      · exact hexDigit_lower _ (by omega)
      · exact hexDigit_lower _ (by omega)
      · exact hexDigit_lower _ (by omega)
      · exact hexDigit_lower _ (by omega)

theorem pci_bushandle_eq (bus : Nat) :
    pci_bushandle bus
      = "PCIBUS:" ++ String.mk [hexDigit (bus % 256 / 16), hexDigit (bus % 256 % 16)] := by
  unfold pci_bushandle
  rw [fmt_x_byte _ (Nat.mod_lt _ (by norm_num))]
  rfl

theorem read_dev_bus_lt (config : String → Option (List Nat)) (l : Line) :
    (read_dev config l).bus < 65536 :=
  Nat.mod_lt _ (by norm_num)

theorem read_dev_dev_lt (config : String → Option (List Nat)) (l : Line) :
    (read_dev config l).dev < 32 := by
  show PCI_SLOT (l.dfn % 4294967296 &&& 0xff) % 256 < 32
  have h : PCI_SLOT (l.dfn % 4294967296 &&& 0xff) ≤ 0x1f := Nat.and_le_right
  omega

theorem read_dev_func_lt (config : String → Option (List Nat)) (l : Line) :
    (read_dev config l).func < 8 := by
  show PCI_FUNC (l.dfn % 4294967296 &&& 0xff) % 256 < 8
  have h : PCI_FUNC (l.dfn % 4294967296 &&& 0xff) ≤ 0x07 := Nat.and_le_right
  omega

theorem pci_handle_eq (bus dev fct : Nat) (hb : bus < 65536) (hd : dev < 32) (hf : fct < 8) :
    pci_handle bus dev fct
      = String.mk (['P', 'C', 'I', ':'] ++ fmt_x 2 bus
          ++ [':', hexDigit (dev / 16), hexDigit (dev % 16), '.', hexDigit fct]) := by
  unfold pci_handle snprintf
  rw [Nat.mod_eq_of_lt hb, Nat.mod_eq_of_lt (show dev < 256 by omega),
    Nat.mod_eq_of_lt (show fct < 256 by omega), fmt_x_byte dev (by omega),
    fmt_x_nibble fct (by omega)]
  have hl := (fmt_x_word bus hb).2.1
  rw [List.take_of_length_le (by simp; omega)]
  simp

theorem digitChar_eq_hexDigit (n : Nat) (hn : n < 16) : Nat.digitChar n = hexDigit n := by
  interval_cases n <;> rfl

theorem hexCore_eq_toDigitsCore (fuel : Nat) :
    ∀ n acc, n ≤ fuel → hexCore fuel n acc = Nat.toDigitsCore 16 (fuel + 1) n acc := by
  induction fuel with
  | zero =>
    intro n acc hn
    have h0 : n = 0 := by omega
    subst h0
    rfl
  | succ f ih =>
    intro n acc hn
    unfold hexCore Nat.toDigitsCore
    by_cases h : n < 16
    · have h1 : n / 16 = 0 := by omega
      have h2 : n % 16 = n := by omega
      simp only [if_pos h, h1, h2, if_true]
      rw [digitChar_eq_hexDigit n h]
    · have h1 : ¬ n / 16 = 0 := by omega
      simp only [if_neg h, if_neg h1]
      rw [digitChar_eq_hexDigit (n % 16) (Nat.mod_lt _ (by norm_num))]
      exact ih _ _ (by omega)

theorem toHex_eq_toDigits (n : Nat) : toHex n = Nat.toDigits 16 n :=
  hexCore_eq_toDigitsCore n n [] (Nat.le_refl n)

theorem fmt_x_eq_hex_spec (w n : Nat) : fmt_x w n = hex_spec n w := by
  unfold fmt_x hex_spec List.leftpad
  rw [toHex_eq_toDigits]

/-! ### Handles of the added nodes -/

/-- C4, as stated, fails for a devfn value of more than 16 bits: the record of
devfn 0x10000 (bus 0x100, device 0, function 0) gets the handle `PCI:100:00.0`,
whose bus field has three hexadecimal digits, so the handle is not of the
form `PCI:<bb>:<dd>.<f>`. -/
theorem handle_of_bus_0x100 :
    scan_host sample_files [sample_line 0x10000]
      = some { name := "pci", kind := hwClass.bridge, description := "",
               handle := "PCIBUS:00",
               children := [{ name := "generic", kind := hwClass.generic, description := "",
                              handle := "PCI:100:00.0", children := [] }] }
    ∧ isFunctionHandle "PCI:100:00.0" = false :=
  ⟨rfl, by decide⟩

/-- C4, amended: for every record whose class word is not 0x0600 the loop body
adds a node whose handle is `PCIBUS:` followed by the two lowercase
hexadecimal digits of the config byte at 0x19 when the class word is 0x0604,
and otherwise `PCI:<bus>:<dd>.<f>` with two digits of the device, one of the
function and, as bus field, the lowercase hexadecimal numeral of the 16-bit
bus number padded with `0` to at least two digits (`hex(bus, 2)` of the
specification, which is what `%02x` prints), of two to four digits; when the
bus number is below 0x100 the bus field has exactly two digits and the handle
matches the grammar `PCI:<bb>:<dd>.<f>`. -/
theorem scan_line_device_handle (config : String → Option (List Nat)) (host : hwNode)
    (l : Line) (dclass : Nat)
    (hc : get_conf_word (read_dev config l) PCI_CLASS_DEVICE = some dclass)
    (hne : dclass ≠ PCI_CLASS_BRIDGE_HOST) :
    ∃ device, new_device (read_dev config l) dclass = some device
      ∧ scan_line config host l = some (attach host (read_dev config l) device)
      ∧ (dclass = PCI_CLASS_BRIDGE_PCI →
          ∃ b, get_conf_byte (read_dev config l) PCI_SECONDARY_BUS = some b ∧ b < 256
            ∧ device.handle = "PCIBUS:" ++ String.mk [hexDigit (b / 16), hexDigit (b % 16)])
      ∧ (dclass ≠ PCI_CLASS_BRIDGE_PCI →
          ∃ bb, device.handle = String.mk (['P', 'C', 'I', ':'] ++ bb
                ++ [':', hexDigit ((read_dev config l).dev / 16),
                    hexDigit ((read_dev config l).dev % 16), '.',
                    hexDigit (read_dev config l).func])
            ∧ bb = hex_spec (read_dev config l).bus 2
            ∧ bb = fmt_x 2 (read_dev config l).bus
            ∧ (read_dev config l).bus < 65536
            ∧ (read_dev config l).dev < 32 ∧ (read_dev config l).func < 8
            ∧ 2 ≤ bb.length ∧ bb.length ≤ 4 ∧ (∀ c ∈ bb, isLowerHex c = true)
            ∧ ((read_dev config l).bus < 256 →
                bb = [hexDigit ((read_dev config l).bus / 16),
                      hexDigit ((read_dev config l).bus % 16)]
                ∧ isFunctionHandle device.handle = true)) := by
  have hd : dclass_of config l = dclass := by
    have := dclass_of_eq config l
    rw [hc] at this
    exact (Option.some.inj this).symm
  subst hd
  have hdev := read_dev_dev_lt config l
  have hfun := read_dev_func_lt config l
  refine ⟨device_of config l, device_of_eq config l, ?_, ?_, ?_⟩
  · rw [scan_line_eq, if_neg hne]
  · intro hb
    refine ⟨_, secondary_bus_eq config l, getD_lt_of_all _ (read_dev_config_lt config l) _, ?_⟩
    rw [device_of_shape]
    simp only [if_pos hb]
    rw [pci_bushandle_eq,
      Nat.mod_eq_of_lt (getD_lt_of_all _ (read_dev_config_lt config l) _)]
  · intro hb
    have hw := fmt_x_word _ (read_dev_bus_lt config l)
    refine ⟨fmt_x 2 (read_dev config l).bus, ?_, fmt_x_eq_hex_spec 2 _, rfl,
      read_dev_bus_lt config l, hdev, hfun, hw.1, hw.2.1, hw.2.2, ?_⟩
    · rw [device_of_shape]
      simp only [if_neg hb]
      exact pci_handle_eq _ _ _ (read_dev_bus_lt config l) hdev hfun
    · intro hlt
      refine ⟨fmt_x_byte _ hlt, ?_⟩
      rw [device_of_shape]
      simp only [if_neg hb]
      rw [pci_handle_eq _ _ _ (read_dev_bus_lt config l) hdev hfun, fmt_x_byte _ hlt]
      have g1 := hexDigit_lower ((read_dev config l).bus / 16) (by omega)
      have g2 := hexDigit_lower ((read_dev config l).bus % 16) (by omega)
      have g3 := hexDigit_lower ((read_dev config l).dev / 16) (by omega)
      have g4 := hexDigit_lower ((read_dev config l).dev % 16) (by omega)
      have g5 := hexDigit_lower (read_dev config l).func (by omega)
      simp [isFunctionHandle, g1, g2, g3, g4, g5]

theorem scan_line_device_handle_witness :
    get_conf_word (read_dev sample_files (sample_line 0xf0)) PCI_CLASS_DEVICE = some 0x0604
    ∧ (0x0604 : Nat) ≠ PCI_CLASS_BRIDGE_HOST
    ∧ (∃ device, new_device (read_dev sample_files (sample_line 0xf0)) 0x0604 = some device
      ∧ device.handle = "PCIBUS:01")
    ∧ ∃ device, new_device (read_dev sample_files (sample_line 0x10000)) 0 = some device
      ∧ device.handle = "PCI:100:00.0" := by
  refine ⟨by decide, by decide, ?_, ?_⟩
  swap
  · obtain ⟨device, g1, _, _, g4⟩ := scan_line_device_handle sample_files host_init
      (sample_line 0x10000) 0 (by decide) (by decide)
    obtain ⟨bb, hh, hbb, _⟩ := g4 (by decide)
    refine ⟨device, g1, ?_⟩
    rw [hh, hbb]
    decide
  obtain ⟨device, h1, _, h3, _⟩ := scan_line_device_handle sample_files host_init
    (sample_line 0xf0) 0x0604 (by decide) (by decide)
  obtain ⟨b, hb, _, hh⟩ := h3 rfl
  have hb1 : b = 1 := by
    have e : get_conf_byte (read_dev sample_files (sample_line 0xf0)) PCI_SECONDARY_BUS
        = some 1 := by decide
    rw [e] at hb
    exact (Option.some.inj hb).symm
  subst hb1
  exact ⟨device, h1, by rw [hh]; decide⟩

/-! ### Placement of the added nodes -/

theorem modifyAt_getElem? (f : hwNode → hwNode) (cs : List hwNode) :
    ∀ i k, (modifyAt f i cs)[k]? = if k = i then (cs[k]?).map f else cs[k]? := by
  induction cs with
  | nil => intro i k; simp [modifyAt]
  | cons c cs ih =>
    intro i k
    cases i with
    | zero =>
      cases k with
      | zero => simp [modifyAt]
      | succ k => simp [modifyAt]
    | succ i =>
      cases k with
      | zero => simp [modifyAt]
      | succ k => simp [modifyAt, ih i k]

theorem modifyAt_length (f : hwNode → hwNode) (cs : List hwNode) :
    ∀ i, (modifyAt f i cs).length = cs.length := by
  induction cs with
  | nil => intro i; simp [modifyAt]
  | cons c cs ih =>
    intro i
    cases i with
    | zero => rfl
    | succ i => simp [modifyAt, ih i]

theorem firstByHandle_none (h : String) (cs : List hwNode) :
    firstByHandle h cs = none → ∀ c ∈ cs, c.handle ≠ h := by
  induction cs with
  | nil => intro _ c hc; cases hc
  | cons x xs ih =>
    intro hn c hc
    unfold firstByHandle at hn
    split_ifs at hn with hx
    cases hf : firstByHandle h xs with
    | some j => rw [hf] at hn; cases hn
    | none =>
      rcases List.mem_cons.1 hc with rfl | hc
      · exact hx
      · exact ih hf c hc

theorem firstByHandle_first (h : String) (cs : List hwNode) :
    ∀ i b, cs[i]? = some b → b.handle = h
      → (∀ j c, j < i → cs[j]? = some c → c.handle ≠ h) → firstByHandle h cs = some i := by
  induction cs with
  | nil => intro i b hb; simp at hb
  | cons x xs ih =>
    intro i b hb hh hlt
    cases i with
    | zero =>
      simp only [List.getElem?_cons_zero, Option.some.injEq] at hb
      subst hb
      unfold firstByHandle
      rw [if_pos hh]
    | succ i =>
      have hx : x.handle ≠ h := hlt 0 x (by omega) (by simp)
      unfold firstByHandle
      rw [if_neg hx]
      rw [ih i b (by simpa using hb) hh (fun j c hj hc => hlt (j + 1) c (by omega) (by simpa using hc))]
      rfl

theorem keyedAt_addChild (hs : String) (i : Nat) (X : List hwNode) (h dev : hwNode)
    (hk : keyedAt hs i X h) : keyedAt hs i X (h.addChild dev) := by
  obtain ⟨b, hb, hh, hn, hX, hlt⟩ := hk
  have hi : i < h.children.length := by
    by_contra hc
    rw [List.getElem?_eq_none (by omega)] at hb
    cases hb
  refine ⟨b, ?_, hh, hn, hX, ?_⟩
  · show (h.children ++ [dev])[i]? = some b
    rw [List.getElem?_append_left hi]
    exact hb
  · intro j c hj hc
    have hc2 : (h.children ++ [dev])[j]? = some c := hc
    rw [List.getElem?_append_left (by omega)] at hc2
    exact hlt j c hj hc2

theorem keyedAt_atChild (hs : String) (i : Nat) (X : List hwNode) (h dev : hwNode) (k : Nat)
    (hk : keyedAt hs i X h) :
    keyedAt hs i (if k = i then dev :: X else X) (h.atChild k (fun b => b.addChild dev)) := by
  obtain ⟨b, hb, hh, hn, hX, hlt⟩ := hk
  by_cases hki : k = i
  · subst hki
    refine ⟨b.addChild dev, ?_, hh, hn, ?_, ?_⟩
    · show (modifyAt _ k h.children)[k]? = _
      rw [modifyAt_getElem?, if_pos rfl, hb]
      rfl
    · rw [if_pos rfl]
      intro x hx
      show x ∈ b.children ++ [dev]
      rcases List.mem_cons.1 hx with rfl | hx
      · simp
      · exact List.mem_append_left _ (hX x hx)
    · intro j c hj hc
      have hc2 : (modifyAt (fun b => b.addChild dev) k h.children)[j]? = some c := hc
      rw [modifyAt_getElem?, if_neg (by omega)] at hc2
      exact hlt j c hj hc2
  · refine ⟨b, ?_, hh, hn, ?_, ?_⟩
    · show (modifyAt _ k h.children)[i]? = _
      rw [modifyAt_getElem?, if_neg (fun e => hki e.symm)]
      exact hb
    · rw [if_neg hki]
      exact hX
    · intro j c hj hc
      have hc2 : (modifyAt (fun b => b.addChild dev) k h.children)[j]? = some c := hc
      rw [modifyAt_getElem?] at hc2
      by_cases hjk : j = k
      · rw [if_pos hjk] at hc2
        cases hcj : h.children[j]? with
        | none => rw [hcj] at hc2; cases hc2
        | some c0 =>
          rw [hcj] at hc2
          have e : c = c0.addChild dev := (Option.some.inj hc2).symm
          rw [e]
          exact hlt j c0 hj hcj
      · rw [if_neg hjk] at hc2
        exact hlt j c hj hc2

theorem keyedAt_weaken (hs : String) (i : Nat) (X Y : List hwNode) (h : hwNode)
    (hk : keyedAt hs i X h) (hY : ∀ y ∈ Y, y ∈ X) : keyedAt hs i Y h := by
  obtain ⟨b, hb, hh, hn, hX, hlt⟩ := hk
  exact ⟨b, hb, hh, hn, fun y hy => hX y (hY y hy), hlt⟩

theorem keyedAt_step (config : String → Option (List Nat)) (hs : String) (i : Nat)
    (X : List hwNode) (h : hwNode) (l : Line) (hk : keyedAt hs i X h) :
    keyedAt hs i X (step config h l) := by
  rw [step_eq]
  split_ifs with hc
  · exact hk
  · unfold attach
    cases hf : h.findChildByHandle (pci_bushandle (read_dev config l).bus) with
    | none => exact keyedAt_addChild hs i X h _ hk
    | some k =>
      refine keyedAt_weaken hs i _ X _ (keyedAt_atChild hs i X h (device_of config l) k hk) ?_
      intro y hy
      split_ifs
      · exact List.mem_cons_of_mem _ hy
      · exact hy

theorem keyedAt_foldl (config : String → Option (List Nat)) (hs : String) (i : Nat)
    (X : List hwNode) (ls : List Line) :
    ∀ h, keyedAt hs i X h → keyedAt hs i X (ls.foldl (step config) h) := by
  induction ls with
  | nil => intro h hk; exact hk
  | cons l ls ih => intro h hk; exact ih _ (keyedAt_step config hs i X h l hk)

theorem takeWhile_append_all (a b : List Line) (ha : ∀ l ∈ a, valid_count l = true) :
    (a ++ b).takeWhile valid_count = a ++ b.takeWhile valid_count := by
  induction a with
  | nil => rfl
  | cons x xs ih =>
    rw [List.cons_append, List.takeWhile_cons, ha x (List.mem_cons_self _ _)]
    simp only [if_true]
    rw [ih (fun l hl => ha l (List.mem_cons_of_mem _ hl))]
    rfl

theorem scan_host_eq (config : String → Option (List Nat)) (lines : List Line) :
    scan_host config lines
      = some ((lines.takeWhile valid_count).foldl (step config) host_init) :=
  scan_lines_eq config lines host_init

theorem valid_of_cnt (l : Line) (h : l.cnt = 9 ∨ l.cnt = 10 ∨ l.cnt = 17 ∨ l.cnt = 18) :
    valid_count l = true := by
  rw [valid_count_iff]
  omega

/-- C1, as stated, fails in two ways. With a PCI-to-PCI bridge B (bus 1,
secondary bus 2) that is itself behind a bridge A (bus 0, secondary bus 1), the
SCSI adapter D on bus 2 processed after B becomes a direct child of the host
node and B's node stays without children. With two bridges on bus 0 of the
same secondary bus 1, the device on bus 1 processed after both goes under the
first one, and the second one stays without children. -/
theorem nested_bridge_not_found :
    get_conf_word (read_dev sample_files (sample_line 0x100)) PCI_CLASS_DEVICE
      = some PCI_CLASS_BRIDGE_PCI
    ∧ get_conf_byte (read_dev sample_files (sample_line 0x100)) PCI_SECONDARY_BUS = some 2
    ∧ get_conf_word (read_dev sample_files (sample_line 0x200)) PCI_CLASS_DEVICE
      = some PCI_CLASS_STORAGE_SCSI
    ∧ (read_dev sample_files (sample_line 0x200)).bus = 2
    ∧ scan_host sample_files [sample_line 0xf0, sample_line 0x100, sample_line 0x200]
      = some { name := "pci", kind := hwClass.bridge, description := "",
               handle := "PCIBUS:00",
               children := [
                 { name := "pci", kind := hwClass.bridge, description := "PCI Bridge",
                   handle := "PCIBUS:01",
                   children := [{ name := "pci", kind := hwClass.bridge,
                                  description := "PCI Bridge", handle := "PCIBUS:02",
                                  children := [] }] },
                 { name := "scsi", kind := hwClass.storage, description := "SCSI Adapter",
                   handle := "PCI:02:00.0", children := [] }] }
    ∧ get_conf_word (read_dev sample_files (sample_line 0xf8)) PCI_CLASS_DEVICE
      = some PCI_CLASS_BRIDGE_PCI
    ∧ get_conf_byte (read_dev sample_files (sample_line 0xf8)) PCI_SECONDARY_BUS = some 1
    ∧ (read_dev sample_files (sample_line 0x100)).bus = 1
    ∧ scan_host sample_files [sample_line 0xf0, sample_line 0xf8, sample_line 0x100]
      = some { name := "pci", kind := hwClass.bridge, description := "",
               handle := "PCIBUS:00",
               children := [
                 { name := "pci", kind := hwClass.bridge, description := "PCI Bridge",
                   handle := "PCIBUS:01",
                   children := [{ name := "pci", kind := hwClass.bridge,
                                  description := "PCI Bridge", handle := "PCIBUS:02",
                                  children := [] }] },
                 { name := "pci", kind := hwClass.bridge, description := "PCI Bridge",
                   handle := "PCIBUS:01", children := [] }] } :=
  ⟨by decide, by decide, by decide, by decide, rfl, by decide, by decide, by decide, rfl⟩

/-- C1, amended: let a record B of class word 0x0604 and secondary-bus byte `s`
be processed before a record D whose class is not 0x0600 and whose bus number
is `s`. If, when B is processed, no direct child of the host node carries the
handle `PCIBUS:<bus of B>` (so B's node is attached directly under the host)
and none carries the handle `PCIBUS:<s>` (so B's node is the first direct child
with that handle), then the step of D appends D's node to the children of
B's node, adds no direct child to the host node, and after the scan D's node
is a direct child of B's node, which sits among the direct children of the
host at the index it was appended at. -/
theorem bridge_nesting (config : String → Option (List Nat)) (pre mid post : List Line)
    (B D : Line) (s : Nat) (h0 : hwNode)
    (hv : ∀ l ∈ pre ++ B :: mid ++ [D], l.cnt = 9 ∨ l.cnt = 10 ∨ l.cnt = 17 ∨ l.cnt = 18)
    (hB : get_conf_word (read_dev config B) PCI_CLASS_DEVICE = some PCI_CLASS_BRIDGE_PCI)
    (hs : get_conf_byte (read_dev config B) PCI_SECONDARY_BUS = some s)
    (hD : get_conf_word (read_dev config D) PCI_CLASS_DEVICE ≠ some PCI_CLASS_BRIDGE_HOST)
    (hbus : (read_dev config D).bus = s)
    (hpre : scan_host config pre = some h0)
    (hfree1 : h0.findChildByHandle (pci_bushandle (read_dev config B).bus) = none)
    (hfree2 : h0.findChildByHandle (pci_bushandle s) = none) :
    ∃ h1 h2 hf dclass nodeD nodeB,
      scan_host config (pre ++ B :: mid) = some h1
      ∧ scan_host config (pre ++ B :: mid ++ [D]) = some h2
      ∧ scan_host config (pre ++ B :: mid ++ D :: post) = some hf
      ∧ get_conf_word (read_dev config D) PCI_CLASS_DEVICE = some dclass
      ∧ new_device (read_dev config D) dclass = some nodeD
      ∧ h2 = h1.atChild h0.children.length (fun b => b.addChild nodeD)
      ∧ h2.children.length = h1.children.length
      ∧ hf.children[h0.children.length]? = some nodeB
      ∧ nodeB.handle = pci_bushandle s ∧ nodeB.name = "pci"
      ∧ nodeD ∈ nodeB.children := by
  have hvalid : ∀ l ∈ pre ++ B :: mid ++ [D], valid_count l = true :=
    fun l hl => valid_of_cnt l (hv l hl)
  have hvpre : ∀ l ∈ pre, valid_count l = true := by
    intro l hl
    apply hvalid
    simp only [List.mem_append, List.mem_cons, List.mem_singleton]
    tauto
  have hvBm : ∀ l ∈ pre ++ B :: mid, valid_count l = true := by
    intro l hl
    apply hvalid
    simp only [List.mem_append, List.mem_cons, List.mem_singleton] at hl ⊢
    tauto
  have e0 : pre.foldl (step config) host_init = h0 := by
    have h := scan_host_eq config pre
    rw [takeWhile_all pre hvpre, hpre] at h
    exact (Option.some.inj h).symm
  have hdB : dclass_of config B = PCI_CLASS_BRIDGE_PCI := by
    have h := dclass_of_eq config B
    rw [hB] at h
    exact (Option.some.inj h).symm
  have hsB : (read_dev config B).config.getD PCI_SECONDARY_BUS 0 = s := by
    have h := secondary_bus_eq config B
    rw [hs] at h
    exact (Option.some.inj h).symm
  have hdD : dclass_of config D ≠ PCI_CLASS_BRIDGE_HOST := by
    intro h
    apply hD
    rw [dclass_of_eq, h]
  have eB : step config h0 B = h0.addChild (device_of config B) := by
    rw [step_eq, if_neg (by rw [hdB]; decide)]
    unfold attach
    rw [hfree1]
  have hhB : (device_of config B).handle = pci_bushandle s := by
    rw [device_of_shape]
    simp only [if_pos hdB]
    rw [hsB]
  have hnB : (device_of config B).name = "pci" := by
    rw [device_of_shape, hdB]
    rfl
  have k1 : keyedAt (pci_bushandle s) h0.children.length [] (step config h0 B) := by
    rw [eB]
    refine ⟨device_of config B, ?_, hhB, hnB, ?_, ?_⟩
    · show (h0.children ++ [device_of config B])[h0.children.length]? = _
      simp
    · intro x hx
      cases hx
    · intro j c hj hc
      have hc2 : (h0.children ++ [device_of config B])[j]? = some c := hc
      rw [List.getElem?_append_left hj] at hc2
      exact firstByHandle_none _ _ hfree2 c (List.getElem?_mem hc2)
  have k2 := keyedAt_foldl config _ _ _ mid _ k1
  have hfD : (mid.foldl (step config) (step config h0 B)).findChildByHandle
      (pci_bushandle (read_dev config D).bus) = some h0.children.length := by
    obtain ⟨b, hb, hh, _, _, hlt⟩ := k2
    rw [hbus]
    exact firstByHandle_first _ _ _ b hb hh hlt
  have eD : step config (mid.foldl (step config) (step config h0 B)) D
      = (mid.foldl (step config) (step config h0 B)).atChild h0.children.length
          (fun b => b.addChild (device_of config D)) := by
    rw [step_eq, if_neg hdD]
    unfold attach
    rw [hfD]
  have k3 : keyedAt (pci_bushandle s) h0.children.length [device_of config D]
      (step config (mid.foldl (step config) (step config h0 B)) D) := by
    rw [eD]
    have h := keyedAt_atChild _ _ _ _ (device_of config D) h0.children.length k2
    rwa [if_pos rfl] at h
  have k4 := keyedAt_foldl config _ _ _ (post.takeWhile valid_count) _ k3
  obtain ⟨nodeB, hnb, hnh, hnn, hnX, _⟩ := k4
  refine ⟨mid.foldl (step config) (step config h0 B),
    step config (mid.foldl (step config) (step config h0 B)) D,
    (post.takeWhile valid_count).foldl (step config)
      (step config (mid.foldl (step config) (step config h0 B)) D),
    dclass_of config D, device_of config D, nodeB, ?_, ?_, ?_, dclass_of_eq config D,
    device_of_eq config D, eD, ?_, hnb, hnh, hnn, hnX _ (List.mem_singleton_self _)⟩
  · rw [scan_host_eq, takeWhile_all _ hvBm, List.foldl_append, List.foldl_cons, e0]
  · rw [scan_host_eq, takeWhile_all _ hvalid, List.foldl_append, List.foldl_cons,
      List.foldl_append, e0]
    rfl
  · have e : pre ++ B :: mid ++ D :: post = (pre ++ B :: mid ++ [D]) ++ post := by simp
    rw [scan_host_eq, e, takeWhile_append_all _ _ hvalid, List.foldl_append,
      List.foldl_append, List.foldl_cons, List.foldl_append, e0]
    rfl
  · rw [eD]
    exact modifyAt_length _ _ _

theorem bridge_nesting_witness :
    ∃ hf nodeB nodeD,
      scan_host sample_files [sample_line 0, sample_line 0xf0, sample_line 0x100] = some hf
      ∧ new_device (read_dev sample_files (sample_line 0x100)) 0x0604 = some nodeD
      ∧ hf.children[0]? = some nodeB
      ∧ nodeB.handle = pci_bushandle 1 ∧ nodeD ∈ nodeB.children := by
  obtain ⟨_, _, hf, dclass, nodeD, nodeB, _, _, h3, h4, h5, _, _, h8, h9, _, h11⟩ :=
    bridge_nesting sample_files [sample_line 0] [] [] (sample_line 0xf0) (sample_line 0x100) 1
      { name := "pci", kind := hwClass.bridge, description := "Host Bridge",
        handle := "PCIBUS:00", children := [] }
      (by decide) (by decide) (by decide) (by decide) (by decide) rfl (by decide) (by decide)
  have hd : dclass = 0x0604 := by
    have e : get_conf_word (read_dev sample_files (sample_line 0x100)) PCI_CLASS_DEVICE
        = some 0x0604 := by decide
    rw [e] at h4
    exact (Option.some.inj h4).symm
  subst hd
  exact ⟨hf, nodeB, nodeD, h3, h5, h8, h9, h11⟩

/-! ### Injectivity of the handle formatter -/

theorem hexDigit_toNat (a : Nat) (ha : a < 16) :
    (hexDigit a).toNat = if a < 10 then 48 + a else 87 + a := by
  interval_cases a <;> rfl

theorem hexDigit_inj (a b : Nat) (ha : a < 16) (hb : b < 16)
    (h : hexDigit a = hexDigit b) : a = b := by
  have h1 := congrArg Char.toNat h
  rw [hexDigit_toNat a ha, hexDigit_toNat b hb] at h1
  split_ifs at h1 <;> omega

theorem fmt_x_three (v : Nat) (h1 : 256 ≤ v) (h2 : v < 4096) :
    fmt_x 2 v = [hexDigit (v / 16 / 16), hexDigit (v / 16 % 16), hexDigit (v % 16)] := by
  unfold fmt_x
  rw [toHex_step v (by omega), toHex_step (v / 16) (by omega),
    toHex_small (v / 16 / 16) (by omega)]
  rfl

theorem fmt_x_four (v : Nat) (h1 : 4096 ≤ v) (h2 : v < 65536) :
    fmt_x 2 v = [hexDigit (v / 16 / 16 / 16), hexDigit (v / 16 / 16 % 16),
      hexDigit (v / 16 % 16), hexDigit (v % 16)] := by
  unfold fmt_x
  rw [toHex_step v (by omega), toHex_step (v / 16) (by omega),
    toHex_step (v / 16 / 16) (by omega), toHex_small (v / 16 / 16 / 16) (by omega)]
  rfl

theorem fmt_x_length (v : Nat) (hv : v < 65536) :
    (fmt_x 2 v).length = if v < 256 then 2 else if v < 4096 then 3 else 4 := by
  by_cases h1 : v < 256
  · rw [if_pos h1, fmt_x_byte v h1]; rfl
  · by_cases h2 : v < 4096
    · rw [if_neg h1, if_pos h2, fmt_x_three v (by omega) h2]; rfl
    · rw [if_neg h1, if_neg h2, fmt_x_four v (by omega) hv]; rfl

theorem fmt_x_inj (v w : Nat) (hv : v < 65536) (hw : w < 65536)
    (h : fmt_x 2 v = fmt_x 2 w) : v = w := by
  have hl := congrArg List.length h
  rw [fmt_x_length v hv, fmt_x_length w hw] at hl
  by_cases v1 : v < 256
  · have w1 : w < 256 := by
      by_contra hc
      rw [if_pos v1, if_neg hc] at hl
      split_ifs at hl <;> omega
    rw [fmt_x_byte v v1, fmt_x_byte w w1] at h
    simp only [List.cons.injEq, and_true] at h
    have e1 := hexDigit_inj _ _ (by omega) (by omega) h.1
    have e2 := hexDigit_inj _ _ (by omega) (by omega) h.2
    omega
  · by_cases v2 : v < 4096
    · have w1 : ¬ w < 256 := by
        intro hc
        rw [if_neg v1, if_pos v2, if_pos hc] at hl
        cases hl
      have w2 : w < 4096 := by
        by_contra hc
        rw [if_neg v1, if_pos v2, if_neg w1, if_neg hc] at hl
        cases hl
      rw [fmt_x_three v (by omega) v2, fmt_x_three w (by omega) w2] at h
      simp only [List.cons.injEq, and_true] at h
      have e1 := hexDigit_inj _ _ (by omega) (by omega) h.1
      have e2 := hexDigit_inj _ _ (by omega) (by omega) h.2.1
      have e3 := hexDigit_inj _ _ (by omega) (by omega) h.2.2
      omega
    · have w1 : ¬ w < 256 := by
        intro hc
        rw [if_neg v1, if_neg v2, if_pos hc] at hl
        cases hl
      have w2 : ¬ w < 4096 := by
        intro hc
        rw [if_neg v1, if_neg v2, if_neg w1, if_pos hc] at hl
        cases hl
      rw [fmt_x_four v (by omega) hv, fmt_x_four w (by omega) hw] at h
      simp only [List.cons.injEq, and_true] at h
      have e1 := hexDigit_inj _ _ (by omega) (by omega) h.1
      have e2 := hexDigit_inj _ _ (by omega) (by omega) h.2.1
      have e3 := hexDigit_inj _ _ (by omega) (by omega) h.2.2.1
      have e4 := hexDigit_inj _ _ (by omega) (by omega) h.2.2.2
      omega

theorem pci_bushandle_data (bus : Nat) :
    (pci_bushandle bus).data
      = ['P', 'C', 'I', 'B', 'U', 'S', ':', hexDigit (bus % 256 / 16),
          hexDigit (bus % 256 % 16)] := by
  rw [pci_bushandle_eq]
  rfl

theorem pci_bushandle_inj (a b : Nat) (h : pci_bushandle a = pci_bushandle b) :
    a % 256 = b % 256 := by
  have hd := congrArg String.data h
  rw [pci_bushandle_data, pci_bushandle_data] at hd
  simp only [List.cons.injEq, true_and, and_true] at hd
  have ha : a % 256 < 256 := Nat.mod_lt _ (by norm_num)
  have hb : b % 256 < 256 := Nat.mod_lt _ (by norm_num)
  have e1 := hexDigit_inj _ _ (by omega) (by omega) hd.1
  have e2 := hexDigit_inj _ _ (by omega) (by omega) hd.2
  omega

theorem pci_handle_ne_bushandle (bus dev fct b : Nat) (hb : bus < 65536) (hd : dev < 32)
    (hf : fct < 8) : pci_handle bus dev fct ≠ pci_bushandle b := by
  intro h
  have hdat := congrArg String.data h
  rw [pci_bushandle_data, pci_handle_eq bus dev fct hb hd hf] at hdat
  simp at hdat

theorem pci_handle_inj (b1 d1 f1 b2 d2 f2 : Nat) (hb1 : b1 < 65536) (hd1 : d1 < 32)
    (hf1 : f1 < 8) (hb2 : b2 < 65536) (hd2 : d2 < 32) (hf2 : f2 < 8)
    (h : pci_handle b1 d1 f1 = pci_handle b2 d2 f2) : b1 = b2 ∧ d1 = d2 ∧ f1 = f2 := by
  have hd := congrArg String.data h
  rw [pci_handle_eq b1 d1 f1 hb1 hd1 hf1, pci_handle_eq b2 d2 f2 hb2 hd2 hf2] at hd
  simp only [List.append_assoc, List.cons_append, List.nil_append, List.cons.injEq,
    true_and] at hd
  have hs := List.append_inj' hd (by simp)
  obtain ⟨h1, h2⟩ := hs
  simp only [List.cons.injEq, true_and, and_true] at h2
  have e0 := fmt_x_inj b1 b2 hb1 hb2 h1
  have e1 := hexDigit_inj _ _ (by omega) (by omega) h2.1
  have e2 := hexDigit_inj _ _ (by omega) (by omega) h2.2.1
  have e3 := hexDigit_inj _ _ (by omega) (by omega) h2.2.2
  omega

/-! ### Handles of the host subtree -/

theorem handles_eq (n : hwNode) : n.handles = n.handle :: handlesList n.children := by
  cases n; rfl

theorem handlesList_append (a b : List hwNode) :
    handlesList (a ++ b) = handlesList a ++ handlesList b := by
  induction a with
  | nil => rfl
  | cons c cs ih =>
    show c.handles ++ handlesList (cs ++ b) = (c.handles ++ handlesList cs) ++ handlesList b
    rw [ih, List.append_assoc]

theorem handlesList_singleton (c : hwNode) : handlesList [c] = c.handles := by
  show c.handles ++ [] = c.handles
  simp

theorem handlesList_modifyAt (dev : hwNode) (cs : List hwNode) :
    ∀ i, i < cs.length →
      ((handlesList (modifyAt (fun b => b.addChild dev) i cs) : List String) : Multiset String)
        = (handlesList cs : Multiset String) + (dev.handles : Multiset String) := by
  induction cs with
  | nil => intro i hi; cases hi
  | cons x xs ih =>
    intro i hi
    cases i with
    | zero =>
      show ((((x.addChild dev).handles ++ handlesList xs : List String)) : Multiset String)
        = ((x.handles ++ handlesList xs : List String) : Multiset String) + _
      rw [handles_eq (x.addChild dev), handles_eq x]
      show (((x.handle :: handlesList (x.children ++ [dev])) ++ handlesList xs : List String)
        : Multiset String) = _
      rw [handlesList_append, handlesList_singleton, Multiset.coe_add, Multiset.coe_eq_coe]
      simp only [List.cons_append, List.append_assoc]
      exact (List.perm_append_comm.append_left _).cons _
    | succ j =>
      show (((x.handles ++ handlesList (modifyAt _ j xs) : List String)) : Multiset String)
        = ((x.handles ++ handlesList xs : List String) : Multiset String) + _
      rw [← Multiset.coe_add, ← Multiset.coe_add, ih j (by simpa using hi)]
      abel

theorem handlesList_attach (host : hwNode) (d : pci_dev) (dev : hwNode) :
    ((handlesList (attach host d dev).children : List String) : Multiset String)
      = (handlesList host.children : Multiset String) + (dev.handles : Multiset String) := by
  unfold attach
  cases hf : host.findChildByHandle (pci_bushandle d.bus) with
  | none =>
    show ((handlesList (host.children ++ [dev]) : List String) : Multiset String) = _
    rw [handlesList_append, handlesList_singleton, Multiset.coe_add]
  | some i =>
    exact handlesList_modifyAt dev host.children i (firstByHandle_lt _ _ i hf)

theorem handles_device_of (config : String → Option (List Nat)) (l : Line) :
    (device_of config l).handles = [(device_of config l).handle] := by
  rw [handles_eq]
  have h : (device_of config l).children = [] := by rw [device_of_shape]
  rw [h]
  rfl

theorem handlesList_step (config : String → Option (List Nat)) (host : hwNode) (l : Line) :
    ((handlesList (step config host l).children : List String) : Multiset String)
      = (handlesList host.children : Multiset String)
        + (((if not_host_bridge config l = true then [(device_of config l).handle] else [])
            : List String) : Multiset String) := by
  rw [step_eq]
  by_cases h : dclass_of config l = PCI_CLASS_BRIDGE_HOST
  · rw [if_pos h, if_neg (by rw [not_host_bridge_iff]; exact fun hn => hn h)]
    show ((handlesList host.children : List String) : Multiset String) = _
    simp
  · rw [if_neg h, if_pos ((not_host_bridge_iff config l).2 h), handlesList_attach,
      handles_device_of]

theorem handlesList_foldl (config : String → Option (List Nat)) (ls : List Line) :
    ∀ host, ((handlesList (ls.foldl (step config) host).children : List String)
        : Multiset String)
      = (handlesList host.children : Multiset String)
        + ((((ls.filter (not_host_bridge config)).map
            (fun l => (device_of config l).handle)) : List String) : Multiset String) := by
  induction ls with
  | nil => intro host; simp
  | cons l ls ih =>
    intro host
    rw [List.foldl_cons, ih, handlesList_step, List.filter_cons]
    by_cases h : not_host_bridge config l = true
    · rw [if_pos h, if_pos h, List.map_cons, ← Multiset.cons_coe, ← Multiset.cons_coe]
      simp only [Multiset.cons_zero, Multiset.coe_nil, Multiset.add_cons, Multiset.singleton_add,
        add_assoc, Multiset.cons_add]
    · rw [if_neg h, if_neg h]
      simp

theorem handle_foldl (config : String → Option (List Nat)) (ls : List Line) :
    ∀ host, (ls.foldl (step config) host).handle = host.handle
      ∨ ∃ r ∈ ls, not_host_bridge config r = false
          ∧ (ls.foldl (step config) host).handle = pci_bushandle (read_dev config r).bus := by
  induction ls with
  | nil => intro host; exact Or.inl rfl
  | cons l ls ih =>
    intro host
    rw [List.foldl_cons]
    rcases ih (step config host l) with h | ⟨r, hr, hn, hh⟩
    · by_cases hc : dclass_of config l = PCI_CLASS_BRIDGE_HOST
      · right
        refine ⟨l, List.mem_cons_self _ _, ?_, ?_⟩
        · cases hb : not_host_bridge config l with
          | false => rfl
          | true => exact absurd hc ((not_host_bridge_iff config l).1 hb)
        · rw [h, step_eq, if_pos hc]
          rfl
      · left
        rw [h, step_eq, if_neg hc]
        unfold attach
        cases host.findChildByHandle (pci_bushandle (read_dev config l).bus) <;> rfl
    · exact Or.inr ⟨r, List.mem_cons_of_mem _ hr, hn, hh⟩

theorem is_pci_bridge_iff (config : String → Option (List Nat)) (l : Line) :
    is_pci_bridge config l = true ↔ dclass_of config l = PCI_CLASS_BRIDGE_PCI := by
  unfold is_pci_bridge
  rw [dclass_of_eq]
  simp

theorem device_handle_ne (config : String → Option (List Nat)) (a b : Line)
    (haddr : ((read_dev config a).bus, (read_dev config a).dev, (read_dev config a).func)
      ≠ ((read_dev config b).bus, (read_dev config b).dev, (read_dev config b).func))
    (hsec : is_pci_bridge config a = true → is_pci_bridge config b = true →
      get_conf_byte (read_dev config a) PCI_SECONDARY_BUS
        ≠ get_conf_byte (read_dev config b) PCI_SECONDARY_BUS) :
    (device_of config a).handle ≠ (device_of config b).handle := by
  rw [device_of_shape, device_of_shape]
  show (if dclass_of config a = PCI_CLASS_BRIDGE_PCI then _ else _)
    ≠ (if dclass_of config b = PCI_CLASS_BRIDGE_PCI then _ else _)
  have la := getD_lt_of_all _ (read_dev_config_lt config a) PCI_SECONDARY_BUS
  have lb := getD_lt_of_all _ (read_dev_config_lt config b) PCI_SECONDARY_BUS
  by_cases ha : dclass_of config a = PCI_CLASS_BRIDGE_PCI
  · by_cases hb : dclass_of config b = PCI_CLASS_BRIDGE_PCI
    · rw [if_pos ha, if_pos hb]
      intro h
      have hm := pci_bushandle_inj _ _ h
      rw [Nat.mod_eq_of_lt la, Nat.mod_eq_of_lt lb] at hm
      apply hsec ((is_pci_bridge_iff config a).2 ha) ((is_pci_bridge_iff config b).2 hb)
      rw [secondary_bus_eq, secondary_bus_eq, hm]
    · rw [if_pos ha, if_neg hb]
      exact fun h => pci_handle_ne_bushandle _ _ _ _ (read_dev_bus_lt config b)
        (read_dev_dev_lt config b) (read_dev_func_lt config b) h.symm
  · by_cases hb : dclass_of config b = PCI_CLASS_BRIDGE_PCI
    · rw [if_neg ha, if_pos hb]
      exact pci_handle_ne_bushandle _ _ _ _ (read_dev_bus_lt config a)
        (read_dev_dev_lt config a) (read_dev_func_lt config a)
    · rw [if_neg ha, if_neg hb]
      intro h
      obtain ⟨e1, e2, e3⟩ := pci_handle_inj _ _ _ _ _ _ (read_dev_bus_lt config a)
        (read_dev_dev_lt config a) (read_dev_func_lt config a) (read_dev_bus_lt config b)
        (read_dev_dev_lt config b) (read_dev_func_lt config b) h
      apply haddr
      rw [e1, e2, e3]

theorem device_handle_ne_bushandle (config : String → Option (List Nat)) (l : Line) (x : Nat)
    (h : is_pci_bridge config l = true →
      get_conf_byte (read_dev config l) PCI_SECONDARY_BUS ≠ some (x % 256)) :
    pci_bushandle x ≠ (device_of config l).handle := by
  rw [device_of_shape]
  show _ ≠ (if dclass_of config l = PCI_CLASS_BRIDGE_PCI then _ else _)
  have ll := getD_lt_of_all _ (read_dev_config_lt config l) PCI_SECONDARY_BUS
  by_cases hb : dclass_of config l = PCI_CLASS_BRIDGE_PCI
  · rw [if_pos hb]
    intro he
    have hm := pci_bushandle_inj _ _ he
    rw [Nat.mod_eq_of_lt ll] at hm
    apply h ((is_pci_bridge_iff config l).2 hb)
    rw [secondary_bus_eq, hm]
  · rw [if_neg hb]
    exact fun he => pci_handle_ne_bushandle _ _ _ _ (read_dev_bus_lt config l)
      (read_dev_dev_lt config l) (read_dev_func_lt config l) he.symm

/-- C3, as stated, fails: two PCI-to-PCI bridges of the same secondary bus 1
both get the handle `PCIBUS:01`; a PCI-to-PCI bridge whose secondary-bus byte
is 0 gets the handle `PCIBUS:00` of the host node; and a table that lists the
function 00:11.0 twice yields two nodes of handle `PCI:00:11.0`. -/
theorem duplicate_handles :
    (scan_host sample_files [sample_line 0xf0, sample_line 0xf8]).map hwNode.handles
      = some ["PCIBUS:00", "PCIBUS:01", "PCIBUS:01"]
    ∧ ¬ ["PCIBUS:00", "PCIBUS:01", "PCIBUS:01"].Nodup
    ∧ (scan_host sample_files [sample_line 0xe8]).map hwNode.handles
      = some ["PCIBUS:00", "PCIBUS:00"]
    ∧ ¬ ["PCIBUS:00", "PCIBUS:00"].Nodup
    ∧ (scan_host sample_files [sample_line 0x88, sample_line 0x88]).map hwNode.handles
      = some ["PCIBUS:00", "PCI:00:11.0", "PCI:00:11.0"]
    ∧ ¬ ["PCIBUS:00", "PCI:00:11.0", "PCI:00:11.0"].Nodup := by
  decide

/-- C3, amended: when no two lines of the device table have the same
(bus, device, function) address, no two PCI-to-PCI bridge records have the
same secondary-bus byte, and the secondary-bus byte of a PCI-to-PCI bridge
record is neither 0 nor the low byte of the bus number of a host-bridge
record, the scan returns a host subtree in which no two nodes (the host node
and all nodes under it) carry the same handle. -/
theorem handles_unique (config : String → Option (List Nat)) (lines : List Line)
    (haddr : (lines.map (fun l => ((read_dev config l).bus, (read_dev config l).dev,
      (read_dev config l).func))).Nodup)
    (hsec : ((lines.filter (is_pci_bridge config)).map
      (fun l => get_conf_byte (read_dev config l) PCI_SECONDARY_BUS)).Nodup)
    (hhost : ∀ b ∈ lines, is_pci_bridge config b = true →
      get_conf_byte (read_dev config b) PCI_SECONDARY_BUS ≠ some 0
      ∧ ∀ r ∈ lines, not_host_bridge config r = false →
          get_conf_byte (read_dev config b) PCI_SECONDARY_BUS
            ≠ some ((read_dev config r).bus % 256)) :
    ∃ host, scan_host config lines = some host ∧ host.handles.Nodup := by
  refine ⟨_, scan_host_eq config lines, ?_⟩
  have hsubP : (lines.takeWhile valid_count).Sublist lines := List.takeWhile_sublist _
  have hsub : ((lines.takeWhile valid_count).filter (not_host_bridge config)).Sublist lines :=
    (List.filter_sublist _).trans hsubP
  have hm := handlesList_foldl config (lines.takeWhile valid_count) host_init
  have h0 : handlesList host_init.children = [] := rfl
  rw [h0, Multiset.coe_nil, zero_add, Multiset.coe_eq_coe] at hm
  have p1 : lines.Pairwise (fun a b =>
      ((read_dev config a).bus, (read_dev config a).dev, (read_dev config a).func)
        ≠ ((read_dev config b).bus, (read_dev config b).dev, (read_dev config b).func)) :=
    List.pairwise_map.1 haddr
  have p2 : lines.Pairwise (fun a b => is_pci_bridge config a = true →
      is_pci_bridge config b = true →
      get_conf_byte (read_dev config a) PCI_SECONDARY_BUS
        ≠ get_conf_byte (read_dev config b) PCI_SECONDARY_BUS) := by
    have hf := List.pairwise_filter (p := fun b => is_pci_bridge config b = true) (l := lines)
      (R := fun a b => get_conf_byte (read_dev config a) PCI_SECONDARY_BUS
        ≠ get_conf_byte (read_dev config b) PCI_SECONDARY_BUS)
    simp only [Bool.decide_eq_true] at hf
    exact hf.1 (List.pairwise_map.1 hsec)
  have p3 : lines.Pairwise (fun a b =>
      (device_of config a).handle ≠ (device_of config b).handle) :=
    (p1.and p2).imp (fun h => device_handle_ne config _ _ h.1 h.2)
  have hnd : (((lines.takeWhile valid_count).filter (not_host_bridge config)).map
      (fun l => (device_of config l).handle)).Nodup :=
    List.pairwise_map.2 (p3.sublist hsub)
  rw [handles_eq, List.nodup_cons]
  refine ⟨?_, hm.nodup_iff.2 hnd⟩
  rw [hm.mem_iff, List.mem_map]
  rintro ⟨l, hl, he⟩
  have hlmem : l ∈ lines := hsub.subset hl
  rcases handle_foldl config (lines.takeWhile valid_count) host_init with hh | ⟨r, hr, hn, hh⟩
  · rw [hh] at he
    have e0 : host_init.handle = pci_bushandle 0 := rfl
    rw [e0] at he
    exact device_handle_ne_bushandle config l 0 (fun hb => (hhost l hlmem hb).1) he.symm
  · rw [hh] at he
    exact device_handle_ne_bushandle config l _
      (fun hb => (hhost l hlmem hb).2 r (hsubP.subset hr) hn) he.symm

theorem handles_unique_witness :
    ∃ host, scan_host sample_files
        [sample_line 0, sample_line 0xf0, sample_line 0x100, sample_line 0x200] = some host
      ∧ host.handles.Nodup :=
  handles_unique sample_files
    [sample_line 0, sample_line 0xf0, sample_line 0x100, sample_line 0x200]
    (by decide) (by decide) (by decide)

/-! ### Failure paths of `scan_pci` -/

theorem read_dev_config (config : String → Option (List Nat)) (l : Line) :
    (read_dev config l).config = read_config (config (devicepath_of l)) := rfl

theorem scan_pci_of_scan_host (config : String → Option (List Nat)) (a b : List Line)
    (n : hwNode) (h : scan_host config a = scan_host config b) :
    scan_pci { devices := some a, config := config } n
      = scan_pci { devices := some b, config := config } n := by
  unfold scan_pci
  simp only [h]

theorem scan_pci_some (config : String → Option (List Nat)) (lines : List Line) (n : hwNode) :
    ∃ r, scan_pci { devices := some lines, config := config } n = some r := by
  unfold scan_pci
  simp only [scan_host_eq]
  split <;> exact ⟨_, rfl⟩

/-- C15: when the device table cannot be opened (`fopen` fails) `scan_pci`
returns with the caller's tree exactly as it was, whatever that tree is. -/
theorem scan_pci_open_failure (config : String → Option (List Nat)) (n : hwNode) :
    scan_pci { devices := none, config := config } n = some n :=
  rfl

/-- C16: for a device table `P ++ [bad] ++ R` whose lines in `P` all have a field
count in {9, 10, 17, 18} and whose line `bad` has any other field count, the
host subtree and the tree `scan_pci` produces are those of the table `P` alone,
and `scan_pci` produces a tree. -/
theorem scan_pci_malformed_line (config : String → Option (List Nat))
    (P R : List Line) (bad : Line) (n : hwNode)
    (hP : ∀ l ∈ P, l.cnt = 9 ∨ l.cnt = 10 ∨ l.cnt = 17 ∨ l.cnt = 18)
    (hbad : bad.cnt ≠ 9 ∧ bad.cnt ≠ 10 ∧ bad.cnt ≠ 17 ∧ bad.cnt ≠ 18) :
    scan_host config (P ++ bad :: R) = scan_host config P
    ∧ scan_pci { devices := some (P ++ bad :: R), config := config } n
        = scan_pci { devices := some P, config := config } n
    ∧ ∃ r, scan_pci { devices := some (P ++ bad :: R), config := config } n = some r := by
  have hv : ∀ l ∈ P, valid_count l = true := fun l hl => valid_of_cnt l (hP l hl)
  have hb : valid_count bad = false := by
    cases h : valid_count bad with
    | false => rfl
    | true => exact absurd hbad ((valid_count_iff bad).1 h)
  have e : scan_host config (P ++ bad :: R) = scan_host config P := by
    rw [scan_host_eq, scan_host_eq, takeWhile_append_all _ _ hv, takeWhile_all _ hv,
      List.takeWhile_cons, hb]
    simp
  exact ⟨e, scan_pci_of_scan_host config _ _ n e, scan_pci_some config _ n⟩

theorem scan_pci_malformed_line_witness :
    scan_host sample_files
        ([sample_line 0, sample_line 0x88] ++ { sample_line 0xf0 with cnt := 5 } :: [sample_line 0x100])
      = scan_host sample_files [sample_line 0, sample_line 0x88] :=
  (scan_pci_malformed_line sample_files [sample_line 0, sample_line 0x88] [sample_line 0x100]
    { sample_line 0xf0 with cnt := 5 } host_init (by decide) (by decide)).1

/-! ### Decoding of `devfn` -/

theorem and_255 (x : Nat) : x &&& 0xff = x % 256 := Nat.and_pow_two_sub_one_eq_mod x 8

theorem and_31 (x : Nat) : x &&& 0x1f = x % 32 := Nat.and_pow_two_sub_one_eq_mod x 5

theorem and_7 (x : Nat) : x &&& 0x07 = x % 8 := Nat.and_pow_two_sub_one_eq_mod x 3

theorem read_dev_addr (config : String → Option (List Nat)) (l : Line) :
    (read_dev config l).bus = l.dfn % 4294967296 / 256 % 65536
    ∧ (read_dev config l).dev = l.dfn % 256 / 8
    ∧ (read_dev config l).func = l.dfn % 8 := by
  refine ⟨?_, ?_, ?_⟩
  · show ((l.dfn % 4294967296) >>> 8) % 65536 = _
    rw [shr8]
  · show PCI_SLOT (l.dfn % 4294967296 &&& 0xff) % 256 = _
    unfold PCI_SLOT
    rw [and_31, and_255, Nat.shiftRight_eq_div_pow]
    omega
  · show PCI_FUNC (l.dfn % 4294967296 &&& 0xff) % 256 = _
    unfold PCI_FUNC
    rw [and_7, and_255]
    omega

/-- C19: for every devfn value `dfn` in 0..0xFFFF the loop sets the function
to bits 2:0 of `dfn`, the device to bits 7:3 and the bus to `dfn >> 8`; the
triple lies in the ranges bus 0..255, device 0..31, function 0..7 and
`dfn = bus * 256 + device * 8 + function`. -/
theorem devfn_decoding (config : String → Option (List Nat)) (l : Line)
    (h : l.dfn ≤ 0xFFFF) :
    (read_dev config l).func = l.dfn % 8
    ∧ (read_dev config l).dev = l.dfn / 8 % 32
    ∧ (read_dev config l).bus = l.dfn / 256
    ∧ (read_dev config l).bus ≤ 255 ∧ (read_dev config l).dev ≤ 31
    ∧ (read_dev config l).func ≤ 7
    ∧ l.dfn = (read_dev config l).bus * 256 + (read_dev config l).dev * 8
        + (read_dev config l).func := by
  obtain ⟨hb, hd, hf⟩ := read_dev_addr config l
  rw [hb, hd, hf]
  omega

theorem devfn_decoding_witness :
    (sample_line 0x0088).dfn ≤ 0xFFFF
    ∧ (read_dev sample_files (sample_line 0x0088)).bus = 0
    ∧ (read_dev sample_files (sample_line 0x0088)).dev = 0x11
    ∧ (read_dev sample_files (sample_line 0x0088)).func = 0 := by
  have h := devfn_decoding sample_files (sample_line 0x0088) (by decide)
  exact ⟨by decide, by rw [h.2.2.1]; decide, by rw [h.2.1]; decide, by rw [h.1]; decide⟩

/-! ### The host node -/

theorem attach_fields (host : hwNode) (d : pci_dev) (device : hwNode) :
    (attach host d device).name = host.name ∧ (attach host d device).kind = host.kind
    ∧ (attach host d device).description = host.description
    ∧ (attach host d device).handle = host.handle := by
  unfold attach
  cases host.findChildByHandle (pci_bushandle d.bus) <;> exact ⟨rfl, rfl, rfl, rfl⟩

theorem step_name_kind (config : String → Option (List Nat)) (host : hwNode) (l : Line) :
    (step config host l).name = host.name ∧ (step config host l).kind = host.kind := by
  rw [step_eq]
  split_ifs
  · exact ⟨rfl, rfl⟩
  · exact ⟨(attach_fields _ _ _).1, (attach_fields _ _ _).2.1⟩

theorem foldl_name_kind (config : String → Option (List Nat)) (ls : List Line) :
    ∀ host, (ls.foldl (step config) host).name = host.name
      ∧ (ls.foldl (step config) host).kind = host.kind := by
  induction ls with
  | nil => intro host; exact ⟨rfl, rfl⟩
  | cons l ls ih =>
    intro host
    rw [List.foldl_cons]
    obtain ⟨h1, h2⟩ := ih (step config host l)
    obtain ⟨h3, h4⟩ := step_name_kind config host l
    exact ⟨h1.trans h3, h2.trans h4⟩

theorem step_host_bridge (config : String → Option (List Nat)) (host : hwNode) (l : Line)
    (h : not_host_bridge config l = false) :
    step config host l =
      { host with description := "Host Bridge",
                  handle := pci_bushandle (read_dev config l).bus } := by
  have hc : dclass_of config l = PCI_CLASS_BRIDGE_HOST := by
    by_contra hne
    rw [(not_host_bridge_iff config l).2 hne] at h
    cases h
  rw [step_eq, if_pos hc, hc]
  rfl

theorem step_other (config : String → Option (List Nat)) (host : hwNode) (l : Line)
    (h : not_host_bridge config l = true) :
    (step config host l).handle = host.handle
    ∧ (step config host l).description = host.description := by
  rw [step_eq, if_neg ((not_host_bridge_iff config l).1 h)]
  exact ⟨(attach_fields _ _ _).2.2.2, (attach_fields _ _ _).2.2.1⟩

theorem foldl_other (config : String → Option (List Nat)) (ls : List Line) :
    ∀ host, (∀ l ∈ ls, not_host_bridge config l = true) →
      (ls.foldl (step config) host).handle = host.handle
      ∧ (ls.foldl (step config) host).description = host.description := by
  induction ls with
  | nil => intro host _; exact ⟨rfl, rfl⟩
  | cons l ls ih =>
    intro host hall
    rw [List.foldl_cons]
    obtain ⟨h1, h2⟩ := ih (step config host l) (fun x hx => hall x (List.mem_cons_of_mem _ hx))
    obtain ⟨h3, h4⟩ := step_other config host l (hall l (List.mem_cons_self _ _))
    exact ⟨h1.trans h3, h2.trans h4⟩

/-- C14, as stated, fails for a bus number of more than 8 bits: the host-bridge
record of devfn 0x10000 is on bus 0x100, whose hexadecimal numeral padded to
two digits is `100`, but `pci_bushandle` takes its argument as `u_int8_t` and
the host handle becomes `PCIBUS:00`. -/
theorem host_handle_of_bus_0x100 :
    get_conf_word (read_dev wide_bus_files (sample_line 0x10000)) PCI_CLASS_DEVICE
      = some PCI_CLASS_BRIDGE_HOST
    ∧ (read_dev wide_bus_files (sample_line 0x10000)).bus = 0x100
    ∧ scan_host wide_bus_files [sample_line 0x10000]
      = some { name := "pci", kind := hwClass.bridge, description := "Host Bridge",
               handle := "PCIBUS:00", children := [] }
    ∧ bus_handle_spec 0x100 = "PCIBUS:100" ∧ "PCIBUS:00" ≠ bus_handle_spec 0x100 :=
  ⟨by decide, by decide, rfl, by decide, by decide⟩

/-- C14, amended: the host node the scan returns has name `pci` and kind bridge.
When no processed record has class 0x0600 its handle is `PCIBUS:00`. The loop
body on a record of class 0x0600 leaves the children of the host as they are,
sets its description to `Host Bridge` and its handle to `pci_bushandle(d.bus)`,
that is `PCIBUS:` followed by the two hexadecimal digits of the low byte of
the bus number (of the bus number itself when it is below 0x100). After the
scan the handle is the one set by the last processed record of class 0x0600. -/
theorem host_rekeying (config : String → Option (List Nat)) (lines : List Line) :
    ∃ host, scan_host config lines = some host
      ∧ host.name = "pci" ∧ host.kind = hwClass.bridge
      ∧ ((∀ l ∈ lines.takeWhile valid_count, not_host_bridge config l = true) →
          host.handle = "PCIBUS:00")
      ∧ (∀ h l, get_conf_word (read_dev config l) PCI_CLASS_DEVICE
            = some PCI_CLASS_BRIDGE_HOST →
          ∃ h1, scan_line config h l = some h1 ∧ h1.children = h.children
            ∧ h1.name = h.name ∧ h1.kind = h.kind
            ∧ h1.description = "Host Bridge"
            ∧ h1.handle = pci_bushandle (read_dev config l).bus
            ∧ h1.handle = "PCIBUS:" ++ String.mk
                [hexDigit ((read_dev config l).bus % 256 / 16),
                 hexDigit ((read_dev config l).bus % 256 % 16)]
            ∧ ((read_dev config l).bus < 256 →
                h1.handle = "PCIBUS:" ++ String.mk
                  [hexDigit ((read_dev config l).bus / 16),
                   hexDigit ((read_dev config l).bus % 16)]))
      ∧ (∀ pre r post, lines.takeWhile valid_count = pre ++ r :: post →
          get_conf_word (read_dev config r) PCI_CLASS_DEVICE = some PCI_CLASS_BRIDGE_HOST →
          (∀ l ∈ post, not_host_bridge config l = true) →
          host.handle = pci_bushandle (read_dev config r).bus
          ∧ host.description = "Host Bridge") := by
  refine ⟨_, scan_host_eq config lines, ?_, ?_, ?_, ?_, ?_⟩
  · exact (foldl_name_kind config _ host_init).1
  · exact (foldl_name_kind config _ host_init).2
  · intro hall
    rw [(foldl_other config _ host_init hall).1]
    decide
  · intro h l hc
    have hn : not_host_bridge config l = false := by
      unfold not_host_bridge
      rw [hc]
      decide
    refine ⟨step config h l, scan_line_step config h l, ?_⟩
    rw [step_host_bridge config h l hn]
    refine ⟨rfl, rfl, rfl, rfl, rfl, pci_bushandle_eq _, ?_⟩
    intro hlt
    show pci_bushandle (read_dev config l).bus = _
    rw [pci_bushandle_eq, Nat.mod_eq_of_lt hlt]
  · intro pre r post hsplit hc hpost
    have hn : not_host_bridge config r = false := by
      unfold not_host_bridge
      rw [hc]
      decide
    rw [hsplit, List.foldl_append, List.foldl_cons]
    obtain ⟨h1, h2⟩ := foldl_other config post (step config (pre.foldl (step config) host_init) r)
      hpost
    rw [h1, h2, step_host_bridge config _ r hn]
    exact ⟨rfl, rfl⟩

theorem host_rekeying_witness :
    ∃ host, scan_host sample_files [sample_line 0] = some host
      ∧ host.name = "pci" ∧ host.kind = hwClass.bridge
      ∧ host.handle = pci_bushandle 0 ∧ host.description = "Host Bridge" := by
  obtain ⟨host, h1, h2, h3, _, _, h6⟩ := host_rekeying sample_files [sample_line 0]
  have h := h6 [] (sample_line 0) [] (by decide) (by decide) (by decide)
  exact ⟨host, h1, h2, h3, h.1, h.2⟩

/-! ### A config file that cannot be opened -/

theorem read_config_none : read_config none = List.replicate 256 0 := rfl

/-- C17: for a line with a valid field count whose config file cannot be opened
the config image stays all zeros, the loop body adds exactly one node, with
name `generic`, kind generic, empty description, no children and handle
`pci_handle(d.bus, d.dev, d.func)`, and the loop goes on with the lines that
follow. -/
theorem config_open_failure (config : String → Option (List Nat)) (host : hwNode)
    (l : Line) (rest : List Line)
    (hv : l.cnt = 9 ∨ l.cnt = 10 ∨ l.cnt = 17 ∨ l.cnt = 18)
    (hf : config (devicepath_of l) = none) :
    (read_dev config l).config = List.replicate 256 0
    ∧ ∃ host1, scan_line config host l = some host1
      ∧ host1 = attach host (read_dev config l)
          { name := "generic", kind := hwClass.generic, description := "",
            handle := pci_handle (read_dev config l).bus (read_dev config l).dev
              (read_dev config l).func,
            children := [] }
      ∧ host1.size = host.size + 1
      ∧ scan_lines config (l :: rest) host = scan_lines config rest host1 := by
  have hcfg : (read_dev config l).config = List.replicate 256 0 := by
    rw [read_dev_config, hf]
    rfl
  have hd : dclass_of config l = 0 := by
    have h := dclass_of_eq config l
    have h2 : get_conf_word (read_dev config l) PCI_CLASS_DEVICE = some 0 := by
      unfold get_conf_word
      rw [hcfg]
      decide
    rw [h2] at h
    exact (Option.some.inj h).symm
  have hshape := device_of_shape config l
  rw [hd] at hshape
  have hdev : device_of config l =
      { name := "generic", kind := hwClass.generic, description := "",
        handle := pci_handle (read_dev config l).bus (read_dev config l).dev
          (read_dev config l).func,
        children := [] } := by
    rw [hshape]
    rfl
  have hstep : scan_line config host l
      = some (attach host (read_dev config l) (device_of config l)) := by
    rw [scan_line_eq, hd]
    rfl
  refine ⟨hcfg, _, hstep, by rw [hdev], ?_, ?_⟩
  · rw [size_attach, size_device_of]
  · conv_lhs => unfold scan_lines
    rw [if_neg (by omega), hstep]

theorem config_open_failure_witness :
    ∃ host1, scan_line sample_files host_init (sample_line 0x300) = some host1
      ∧ host1.size = host_init.size + 1 := by
  obtain ⟨_, host1, h1, _, h3, _⟩ := config_open_failure sample_files host_init
    (sample_line 0x300) [] (by decide) (by decide)
  exact ⟨host1, h1, h3⟩

/-! ### Attachment under `core` -/

theorem firstByName_some (nm : String) (cs : List hwNode) :
    ∀ i, firstByName nm cs = some i → ∃ c, cs[i]? = some c ∧ c.name = nm := by
  induction cs with
  | nil => intro i hi; cases hi
  | cons x xs ih =>
    intro i hi
    unfold firstByName at hi
    split_ifs at hi with hx
    · cases hi
      exact ⟨x, by simp, hx⟩
    · cases hj : firstByName nm xs with
      | none => rw [hj] at hi; cases hi
      | some j =>
        rw [hj] at hi
        cases hi
        obtain ⟨c, hc, hn⟩ := ih j hj
        exact ⟨c, by simpa using hc, hn⟩

theorem firstByName_append_new (nm : String) (c : hwNode) (hc : c.name = nm)
    (cs : List hwNode) :
    firstByName nm cs = none → firstByName nm (cs ++ [c]) = some cs.length := by
  induction cs with
  | nil =>
    intro _
    show firstByName nm [c] = some 0
    unfold firstByName
    rw [if_pos hc]
  | cons x xs ih =>
    intro hn
    unfold firstByName at hn
    split_ifs at hn with hx
    cases hf : firstByName nm xs with
    | some j => rw [hf] at hn; cases hn
    | none =>
      show firstByName nm (x :: (xs ++ [c])) = _
      unfold firstByName
      rw [if_neg hx, ih hf]
      rfl

theorem modifyAt_append_last (f : hwNode → hwNode) (c : hwNode) (cs : List hwNode) :
    modifyAt f cs.length (cs ++ [c]) = cs ++ [f c] := by
  induction cs with
  | nil => rfl
  | cons x xs ih =>
    show x :: modifyAt f xs.length (xs ++ [c]) = x :: (xs ++ [f c])
    rw [ih]

/-- C18: whenever the device table can be opened `scan_pci` returns a tree whose
root differs from the caller's only in its children. If the root had no child
named `core`, one is appended, of kind system, whose only child is the host
subtree. If it had one, no child is added to the root, the first child named
`core` keeps its earlier children in order and gets the host subtree as its
last child, and the other children of the root are unchanged. For an empty
table the host subtree is the single node `pci` of kind bridge with handle
`PCIBUS:00` and no children. -/
theorem core_attachment (proc : ProcBusPci) (lines : List Line) (n : hwNode)
    (hd : proc.devices = some lines) :
    ∃ host r, scan_host proc.config lines = some host ∧ scan_pci proc n = some r
      ∧ r.name = n.name ∧ r.kind = n.kind ∧ r.description = n.description
      ∧ r.handle = n.handle
      ∧ (n.getChild "core" = none →
          r.children = n.children ++
            [{ name := "core", kind := hwClass.system, description := "", handle := "",
               children := [host] }])
      ∧ (∀ i, n.getChild "core" = some i →
          ∃ c, n.children[i]? = some c ∧ c.name = "core"
            ∧ r.children[i]? = some { c with children := c.children ++ [host] }
            ∧ r.children.length = n.children.length
            ∧ ∀ j, j ≠ i → r.children[j]? = n.children[j]?)
      ∧ (lines = [] →
          host = { name := "pci", kind := hwClass.bridge, description := "",
                   handle := "PCIBUS:00", children := [] }) := by
  have hempty : lines = [] →
      (lines.takeWhile valid_count).foldl (step proc.config) host_init
        = { name := "pci", kind := hwClass.bridge, description := "",
            handle := "PCIBUS:00", children := [] } := by
    intro hl
    subst hl
    rfl
  cases hg : n.getChild "core" with
  | some i =>
    obtain ⟨c, hc, hn⟩ := firstByName_some "core" n.children i hg
    have hr : scan_pci proc n = some (n.atChild i (fun c => c.addChild
        ((lines.takeWhile valid_count).foldl (step proc.config) host_init))) := by
      unfold scan_pci
      rw [hd]
      simp only [scan_host_eq, hg]
    refine ⟨_, _, scan_host_eq proc.config lines, hr, rfl, rfl, rfl, rfl, ?_, ?_, hempty⟩
    · intro h; cases h
    · intro i2 hi2
      cases hi2
      refine ⟨c, hc, hn, ?_, ?_, ?_⟩
      · show (modifyAt _ i n.children)[i]? = _
        rw [modifyAt_getElem?, if_pos rfl, hc]
        rfl
      · exact modifyAt_length _ _ _
      · intro j hj
        show (modifyAt _ i n.children)[j]? = _
        rw [modifyAt_getElem?, if_neg hj]
  | none =>
    have hnew : (n.addChild (hwNode.new "core" hwClass.system)).getChild "core"
        = some n.children.length :=
      firstByName_append_new "core" (hwNode.new "core" hwClass.system) rfl n.children hg
    have hr : scan_pci proc n = some
        ((n.addChild (hwNode.new "core" hwClass.system)).atChild n.children.length
          (fun c => c.addChild
            ((lines.takeWhile valid_count).foldl (step proc.config) host_init))) := by
      unfold scan_pci
      rw [hd]
      simp only [scan_host_eq, hg, hnew]
    refine ⟨_, _, scan_host_eq proc.config lines, hr, rfl, rfl, rfl, rfl, ?_, ?_, hempty⟩
    · intro _
      show modifyAt _ n.children.length (n.children ++ [hwNode.new "core" hwClass.system]) = _
      rw [modifyAt_append_last]
      rfl
    · intro i hi; cases hi

theorem core_attachment_witness :
    ∃ r, scan_pci { devices := some [], config := sample_files }
        (hwNode.new "computer" hwClass.system) = some r
      ∧ r.children =
          [{ name := "core", kind := hwClass.system, description := "", handle := "",
             children := [{ name := "pci", kind := hwClass.bridge, description := "",
                            handle := "PCIBUS:00", children := [] }] }] := by
  obtain ⟨host, r, _, h2, _, _, _, _, h7, _, h9⟩ := core_attachment
    { devices := some [], config := sample_files } [] (hwNode.new "computer" hwClass.system) rfl
  have hh := h9 rfl
  subst hh
  exact ⟨r, h2, h7 (by decide)⟩

/-! ### Depth of the host subtree -/

theorem modifyAt_mem (f : hwNode → hwNode) (cs : List hwNode) :
    ∀ i c, c ∈ modifyAt f i cs → c ∈ cs ∨ ∃ c0 ∈ cs, c = f c0 := by
  induction cs with
  | nil => intro i c hc; simp [modifyAt] at hc
  | cons x xs ih =>
    intro i c hc
    cases i with
    | zero =>
      simp only [modifyAt, List.mem_cons] at hc
      rcases hc with rfl | hc
      · exact Or.inr ⟨x, List.mem_cons_self _ _, rfl⟩
      · exact Or.inl (List.mem_cons_of_mem _ hc)
    | succ j =>
      simp only [modifyAt, List.mem_cons] at hc
      rcases hc with rfl | hc
      · exact Or.inl (List.mem_cons_self _ _)
      · rcases ih j c hc with h | ⟨c0, h0, he⟩
        · exact Or.inl (List.mem_cons_of_mem _ h)
        · exact Or.inr ⟨c0, List.mem_cons_of_mem _ h0, he⟩

theorem flatBelow_addChild (h dev : hwNode) (hf : flatBelow h) (hd : dev.children = []) :
    flatBelow (h.addChild dev) := by
  intro c hc g hg
  have hc2 : c ∈ h.children ++ [dev] := hc
  rcases List.mem_append.1 hc2 with hc3 | hc3
  · exact hf c hc3 g hg
  · rw [List.mem_singleton] at hc3
    subst hc3
    rw [hd] at hg
    cases hg

theorem flatBelow_atChild (h dev : hwNode) (i : Nat) (hf : flatBelow h)
    (hd : dev.children = []) : flatBelow (h.atChild i (fun b => b.addChild dev)) := by
  intro c hc g hg
  have hc2 : c ∈ modifyAt (fun b => b.addChild dev) i h.children := hc
  rcases modifyAt_mem _ _ i c hc2 with hc3 | ⟨c0, h0, he⟩
  · exact hf c hc3 g hg
  · subst he
    have hg2 : g ∈ c0.children ++ [dev] := hg
    rcases List.mem_append.1 hg2 with hg3 | hg3
    · exact hf c0 h0 g hg3
    · rw [List.mem_singleton] at hg3
      subst hg3
      exact hd

theorem device_of_children (config : String → Option (List Nat)) (l : Line) :
    (device_of config l).children = [] := by
  rw [device_of_shape]

theorem flatBelow_step (config : String → Option (List Nat)) (h : hwNode) (l : Line)
    (hf : flatBelow h) : flatBelow (step config h l) := by
  rw [step_eq]
  split_ifs
  · exact hf
  · unfold attach
    cases h.findChildByHandle (pci_bushandle (read_dev config l).bus) with
    | none => exact flatBelow_addChild h _ hf (device_of_children config l)
    | some i => exact flatBelow_atChild h _ i hf (device_of_children config l)

theorem flatBelow_foldl (config : String → Option (List Nat)) (ls : List Line) :
    ∀ h, flatBelow h → flatBelow (ls.foldl (step config) h) := by
  induction ls with
  | nil => intro h hf; exact hf
  | cons l ls ih => intro h hf; exact ih _ (flatBelow_step config h l hf)

theorem height_eq (n : hwNode) : n.height = heightList n.children := by
  cases n; rfl

theorem heightList_le (k : Nat) (cs : List hwNode) :
    (∀ c ∈ cs, c.height + 1 ≤ k) → heightList cs ≤ k := by
  induction cs with
  | nil => intro _; exact Nat.zero_le _
  | cons x xs ih =>
    intro h
    show max (x.height + 1) (heightList xs) ≤ k
    exact max_le (h x (List.mem_cons_self _ _))
      (ih (fun c hc => h c (List.mem_cons_of_mem _ hc)))

theorem height_of_flatBelow (h : hwNode) (hf : flatBelow h) : h.height ≤ 2 := by
  rw [height_eq]
  apply heightList_le
  intro c hc
  have hc1 : c.height ≤ 1 := by
    rw [height_eq]
    apply heightList_le
    intro g hg
    have hg0 : g.height = 0 := by
      rw [height_eq, hf c hc g hg]
      rfl
    omega
  omega

/-- C20: the host subtree the scan returns has at most two levels below the
host node: every child of a direct child of the host is a node without
children. For a record whose class is not 0x0600 the loop body either appends
the new node, which has no children, after the direct children of the host,
or appends it after the children of one direct child of the host and leaves
the number, the order and the other direct children of the host as they are. -/
theorem depth_bound (config : String → Option (List Nat)) (lines : List Line) :
    ∃ host, scan_host config lines = some host ∧ host.height ≤ 2
      ∧ (∀ c ∈ host.children, ∀ g ∈ c.children, g.children = [])
      ∧ ∀ h l, get_conf_word (read_dev config l) PCI_CLASS_DEVICE
            ≠ some PCI_CLASS_BRIDGE_HOST →
          ∃ device r, scan_line config h l = some r ∧ device.children = []
            ∧ (r.children = h.children ++ [device]
              ∨ ∃ (i : Nat) (b : hwNode), h.children[i]? = some b
                  ∧ r.children[i]? = some { b with children := b.children ++ [device] }
                  ∧ r.children.length = h.children.length
                  ∧ ∀ j, j ≠ i → r.children[j]? = h.children[j]?) := by
  have hflat : flatBelow ((lines.takeWhile valid_count).foldl (step config) host_init) :=
    flatBelow_foldl config _ host_init (by intro c hc; cases hc)
  refine ⟨_, scan_host_eq config lines, height_of_flatBelow _ hflat, hflat, ?_⟩
  intro h l hne
  have hd : dclass_of config l ≠ PCI_CLASS_BRIDGE_HOST := by
    intro he
    apply hne
    rw [dclass_of_eq, he]
  refine ⟨device_of config l, step config h l, scan_line_step config h l,
    device_of_children config l, ?_⟩
  rw [step_eq, if_neg hd]
  unfold attach
  cases hf : h.findChildByHandle (pci_bushandle (read_dev config l).bus) with
  | none => exact Or.inl rfl
  | some i =>
    right
    have hi : i < h.children.length := firstByHandle_lt _ _ i hf
    refine ⟨i, h.children[i], List.getElem?_eq_getElem hi, ?_, modifyAt_length _ _ _, ?_⟩
    · show (modifyAt _ i h.children)[i]? = _
      rw [modifyAt_getElem?, if_pos rfl, List.getElem?_eq_getElem hi]
      rfl
    · intro j hj
      show (modifyAt _ i h.children)[j]? = _
      rw [modifyAt_getElem?, if_neg hj]

/-! ### Nodes named `pci` of kind bridge -/

theorem get_class_name_pci (c : Nat) (h : get_class_name c = "pci") :
    c = PCI_CLASS_BRIDGE_PCI := by
  by_contra hne
  by_cases h0 : c = 1
  · subst h0; exact absurd h (by decide)
  by_cases h1 : c = 256
  · subst h1; exact absurd h (by decide)
  by_cases h2 : c = 257
  · subst h2; exact absurd h (by decide)
  by_cases h3 : c = 1536
  · subst h3; exact absurd h (by decide)
  by_cases h4 : c = 1537
  · subst h4; exact absurd h (by decide)
  by_cases h5 : c = 1538
  · subst h5; exact absurd h (by decide)
  by_cases h6 : c = 1539
  · subst h6; exact absurd h (by decide)
  by_cases h7 : c = 1541
  · subst h7; exact absurd h (by decide)
  by_cases h8 : c = 1542
  · subst h8; exact absurd h (by decide)
  by_cases h9 : c = 1543
  · subst h9; exact absurd h (by decide)
  by_cases h10 : c = 3072
  · subst h10; exact absurd h (by decide)
  by_cases h11 : c = 3075
  · subst h11; exact absurd h (by decide)
  by_cases h12 : c = 3076
  · subst h12; exact absurd h (by decide)
  simp only [get_class_name, shr8, if_neg hne,
    if_neg h0, if_neg h1, if_neg h2, if_neg h3, if_neg h4, if_neg h5, if_neg h6, if_neg h7, if_neg h8, if_neg h9, if_neg h10, if_neg h11, if_neg h12] at h
  generalize c / 256 = b at h
  by_cases g0 : b = 1
  · subst g0; exact absurd h (by decide)
  by_cases g1 : b = 2
  · subst g1; exact absurd h (by decide)
  by_cases g2 : b = 3
  · subst g2; exact absurd h (by decide)
  by_cases g3 : b = 4
  · subst g3; exact absurd h (by decide)
  by_cases g4 : b = 5
  · subst g4; exact absurd h (by decide)
  by_cases g5 : b = 6
  · subst g5; exact absurd h (by decide)
  by_cases g6 : b = 7
  · subst g6; exact absurd h (by decide)
  by_cases g7 : b = 8
  · subst g7; exact absurd h (by decide)
  by_cases g8 : b = 9
  · subst g8; exact absurd h (by decide)
  by_cases g9 : b = 10
  · subst g9; exact absurd h (by decide)
  by_cases g10 : b = 11
  · subst g10; exact absurd h (by decide)
  by_cases g11 : b = 12
  · subst g11; exact absurd h (by decide)
  simp only [if_neg g0, if_neg g1, if_neg g2, if_neg g3, if_neg g4, if_neg g5, if_neg g6, if_neg g7, if_neg g8, if_neg g9, if_neg g10, if_neg g11] at h
  exact absurd h (by decide)

theorem countPci_eq (n : hwNode) :
    n.countPci = (if n.name = "pci" ∧ n.kind = hwClass.bridge then 1 else 0)
      + countPciList n.children := by
  cases n; rfl

theorem countPciList_append (a b : List hwNode) :
    countPciList (a ++ b) = countPciList a + countPciList b := by
  induction a with
  | nil => simp [countPciList]
  | cons c cs ih =>
    show c.countPci + countPciList (cs ++ b) = c.countPci + countPciList cs + countPciList b
    rw [ih]
    omega

theorem countPci_addChild (n c : hwNode) :
    (n.addChild c).countPci = n.countPci + c.countPci := by
  rw [countPci_eq, countPci_eq n]
  show _ + countPciList (n.children ++ [c]) = _
  rw [countPciList_append]
  show (if n.name = "pci" ∧ n.kind = hwClass.bridge then 1 else 0)
    + (countPciList n.children + (c.countPci + 0)) = _
  omega

theorem countPciList_modifyAt (c : hwNode) (cs : List hwNode) :
    ∀ i, i < cs.length →
      countPciList (modifyAt (fun b => b.addChild c) i cs) = countPciList cs + c.countPci := by
  induction cs with
  | nil => intro i hi; cases hi
  | cons x xs ih =>
    intro i hi
    cases i with
    | zero =>
      show (x.addChild c).countPci + countPciList xs = x.countPci + countPciList xs + _
      rw [countPci_addChild]
      omega
    | succ j =>
      show x.countPci + countPciList (modifyAt _ j xs) = x.countPci + countPciList xs + _
      rw [ih j (by simpa using hi)]
      omega

theorem countPciList_attach (host : hwNode) (d : pci_dev) (device : hwNode) :
    countPciList (attach host d device).children
      = countPciList host.children + device.countPci := by
  unfold attach
  cases hf : host.findChildByHandle (pci_bushandle d.bus) with
  | none =>
    show countPciList (host.children ++ [device]) = _
    rw [countPciList_append]
    show _ + (device.countPci + 0) = _
    omega
  | some i => exact countPciList_modifyAt device host.children i (firstByHandle_lt _ _ i hf)

theorem countPci_device_of (config : String → Option (List Nat)) (l : Line) :
    (device_of config l).countPci = if is_pci_bridge config l = true then 1 else 0 := by
  rw [countPci_eq, device_of_children]
  by_cases hb : is_pci_bridge config l = true
  · have hd := (is_pci_bridge_iff config l).1 hb
    rw [if_pos hb, device_of_shape, hd]
    rfl
  · have hn : (device_of config l).name ≠ "pci" := by
      intro hp
      rw [device_of_shape] at hp
      exact hb ((is_pci_bridge_iff config l).2 (get_class_name_pci _ hp))
    rw [if_neg hb, if_neg (fun h => hn h.1)]
    rfl

theorem countPciList_step (config : String → Option (List Nat)) (host : hwNode) (l : Line) :
    countPciList (step config host l).children
      = countPciList host.children + (if is_pci_bridge config l = true then 1 else 0) := by
  rw [step_eq]
  by_cases h : dclass_of config l = PCI_CLASS_BRIDGE_HOST
  · have hb : ¬ is_pci_bridge config l = true := by
      rw [is_pci_bridge_iff, h]
      decide
    rw [if_pos h, if_neg hb]
    rfl
  · rw [if_neg h, countPciList_attach, countPci_device_of]

theorem countPciList_foldl (config : String → Option (List Nat)) (ls : List Line) :
    ∀ host, countPciList (ls.foldl (step config) host).children
      = countPciList host.children + (ls.filter (is_pci_bridge config)).length := by
  induction ls with
  | nil => intro host; rfl
  | cons l ls ih =>
    intro host
    rw [List.foldl_cons, ih, countPciList_step, List.filter_cons]
    by_cases h : is_pci_bridge config l = true
    · rw [if_pos h, if_pos h, List.length_cons]
      omega
    · rw [if_neg h, if_neg h]
      omega

/-- C13, as stated, fails: a table with one host bridge and one PCI-to-PCI
bridge (class 0x0604, whose class name is `pci` and whose kind is bridge)
yields two nodes named `pci` of kind bridge, the host node and the node of
the PCI-to-PCI bridge. -/
theorem two_pci_bridge_nodes :
    scan_host sample_files [sample_line 0, sample_line 0xf0]
      = some { name := "pci", kind := hwClass.bridge, description := "Host Bridge",
               handle := "PCIBUS:00",
               children := [{ name := "pci", kind := hwClass.bridge,
                              description := "PCI Bridge", handle := "PCIBUS:01",
                              children := [] }] }
    ∧ (scan_host sample_files [sample_line 0, sample_line 0xf0]).map hwNode.countPci
      = some 2 :=
  ⟨rfl, by decide⟩

/-- C13, amended: whatever the number of records of class 0x0600, they create no
node: the host subtree the scan returns has one node named `pci` of kind bridge
for the host node plus one for every processed record of class 0x0604, hence
exactly one when the table has no record of class 0x0604. -/
theorem host_bridge_folding (config : String → Option (List Nat)) (lines : List Line) :
    ∃ host, scan_host config lines = some host
      ∧ host.countPci
          = 1 + ((lines.takeWhile valid_count).filter (is_pci_bridge config)).length
      ∧ ((∀ l ∈ lines, is_pci_bridge config l = false) → host.countPci = 1) := by
  have hc : ((lines.takeWhile valid_count).foldl (step config) host_init).countPci
      = 1 + ((lines.takeWhile valid_count).filter (is_pci_bridge config)).length := by
    rw [countPci_eq, countPciList_foldl, (foldl_name_kind config _ host_init).1,
      (foldl_name_kind config _ host_init).2]
    show (if host_init.name = "pci" ∧ host_init.kind = hwClass.bridge then 1 else 0)
      + (0 + _) = _
    rw [if_pos (by decide)]
    omega
  refine ⟨_, scan_host_eq config lines, hc, ?_⟩
  intro hall
  rw [hc]
  have hnil : (lines.takeWhile valid_count).filter (is_pci_bridge config) = [] := by
    rw [List.filter_eq_nil_iff]
    intro l hl
    rw [hall l ((List.takeWhile_sublist _).subset hl)]
    decide
  rw [hnil]
  rfl

theorem host_bridge_folding_witness :
    ∃ host, scan_host sample_files [sample_line 0, sample_line 0, sample_line 0x88] = some host
      ∧ host.countPci = 1 := by
  obtain ⟨host, h1, _, h3⟩ := host_bridge_folding sample_files
    [sample_line 0, sample_line 0, sample_line 0x88]
  exact ⟨host, h1, h3 (by decide)⟩

/-! ### The handle formatter against its reference -/

theorem fmt_x_char (v : Nat) (hv : v < 256) : (fmt_x 1 v).length ≤ 2 := by
  by_cases h : v < 16
  · rw [fmt_x_nibble v h]
    simp
  · unfold fmt_x
    rw [toHex_step v (by omega), toHex_small (v / 16) (by omega)]
    simp

theorem pci_handle_full (bus dev fct : Nat) (hb : bus < 65536) (hd : dev < 256)
    (hf : fct < 256) :
    pci_handle bus dev fct
      = String.mk (['P', 'C', 'I', ':'] ++ fmt_x 2 bus ++ [':'] ++ fmt_x 2 dev ++ ['.']
          ++ fmt_x 1 fct) := by
  unfold pci_handle snprintf
  rw [Nat.mod_eq_of_lt hb, Nat.mod_eq_of_lt hd, Nat.mod_eq_of_lt hf]
  have h1 := (fmt_x_word bus hb).2.1
  have h2 : (fmt_x 2 dev).length = 2 := by rw [fmt_x_byte dev hd]; rfl
  have h3 := fmt_x_char fct hf
  rw [List.take_of_length_le (by simp; omega)]

theorem pci_bushandle_full (bus : Nat) (hb : bus < 256) :
    pci_bushandle bus = "PCIBUS:" ++ String.mk (fmt_x 2 bus) := by
  unfold pci_bushandle snprintf
  rw [Nat.mod_eq_of_lt hb]
  have h2 : (fmt_x 2 bus).length = 2 := by rw [fmt_x_byte bus hb]; rfl
  rw [List.take_of_length_le (by omega)]

/-- C11: for every bus in 0..255 `pci_bushandle(bus)` is `"PCIBUS:" ++ hex(bus, 2)`,
and for every bus in 0..65535, dev in 0..255 and fct in 0..255
`pci_handle(bus, dev, fct)` is
`"PCI:" ++ hex(bus, 2) ++ ":" ++ hex(dev, 2) ++ "." ++ hex(fct, 1)`, where
`hex(v, w)` is the lowercase hexadecimal numeral of `v` padded on the left
with `0` to at least `w` digits: the buffers of 10 and 20 bytes cut nothing. -/
theorem handle_formatter (bus dev fct : Nat) (hb : bus ≤ 65535) (hd : dev ≤ 255)
    (hf : fct ≤ 255) :
    (bus ≤ 255 → pci_bushandle bus = bus_handle_spec bus)
    ∧ pci_handle bus dev fct = function_handle_spec bus dev fct := by
  constructor
  · intro hb2
    rw [pci_bushandle_full bus (by omega), fmt_x_eq_hex_spec]
    rfl
  · rw [pci_handle_full bus dev fct (by omega) (by omega) (by omega), fmt_x_eq_hex_spec,
      fmt_x_eq_hex_spec, fmt_x_eq_hex_spec]
    apply String.ext
    simp [function_handle_spec, String.data_append]

theorem handle_formatter_witness :
    pci_bushandle 0x1e = bus_handle_spec 0x1e ∧ bus_handle_spec 0x1e = "PCIBUS:1e"
    ∧ pci_handle 0x102 0x11 0x7 = function_handle_spec 0x102 0x11 0x7
    ∧ function_handle_spec 0x102 0x11 0x7 = "PCI:102:11.7" := by
  have h := handle_formatter 0x102 0x11 0x7 (by decide) (by decide) (by decide)
  have g := handle_formatter 0x1e 0 0 (by decide) (by decide) (by decide)
  exact ⟨g.1 (by decide), by decide, h.2, by decide⟩

/-! ### Round trip of function handles -/

theorem hexValue_hexDigit (n : Nat) (hn : n < 16) : hexValue (hexDigit n) = some n := by
  interval_cases n <;> rfl

theorem toHex_lower (n : Nat) : ∀ c ∈ toHex n, isLowerHex c = true := by
  induction n using Nat.strong_induction_on with
  | _ n ih =>
    intro c hc
    by_cases h : n < 16
    · rw [toHex_small n h, List.mem_singleton] at hc
      subst hc
      exact hexDigit_lower n h
    · rw [toHex_step n (by omega), List.mem_append, List.mem_singleton] at hc
      rcases hc with hc | hc
      · exact ih (n / 16) (by omega) c hc
      · subst hc
        exact hexDigit_lower _ (Nat.mod_lt _ (by norm_num))

theorem fmt_x_lower (w n : Nat) : ∀ c ∈ fmt_x w n, isLowerHex c = true := by
  intro c hc
  unfold fmt_x at hc
  rcases List.mem_append.1 hc with h | h
  · rw [List.eq_of_mem_replicate h]
    decide
  · exact toHex_lower n c h

theorem readHexFrom_cons (acc : Nat) (c : Char) (cs : List Char) :
    readHexFrom acc (c :: cs)
      = (hexValue c).bind (fun d => readHexFrom (16 * acc + d) cs) := by
  conv_lhs => unfold readHexFrom
  cases hexValue c <;> rfl

theorem readHexFrom_append (a b : List Char) :
    ∀ acc, readHexFrom acc (a ++ b) = (readHexFrom acc a).bind (fun x => readHexFrom x b) := by
  induction a with
  | nil => intro acc; rfl
  | cons c cs ih =>
    intro acc
    show readHexFrom acc (c :: (cs ++ b)) = (readHexFrom acc (c :: cs)).bind _
    rw [readHexFrom_cons, readHexFrom_cons]
    cases hexValue c with
    | none => rfl
    | some d => exact ih _

theorem readHexFrom_toHex (n : Nat) : readHexFrom 0 (toHex n) = some n := by
  induction n using Nat.strong_induction_on with
  | _ n ih =>
    by_cases h : n < 16
    · rw [toHex_small n h, readHexFrom_cons, hexValue_hexDigit n h]
      simp [readHexFrom]
    · rw [toHex_step n (by omega), readHexFrom_append, ih (n / 16) (by omega)]
      show readHexFrom (n / 16) [hexDigit (n % 16)] = some n
      rw [readHexFrom_cons, hexValue_hexDigit _ (Nat.mod_lt _ (by norm_num))]
      show some (16 * (n / 16) + n % 16) = some n
      congr 1
      omega

theorem readHexFrom_zeros (k : Nat) (l : List Char) :
    readHexFrom 0 (List.replicate k '0' ++ l) = readHexFrom 0 l := by
  induction k with
  | zero => rfl
  | succ k ih =>
    show readHexFrom 0 ('0' :: (List.replicate k '0' ++ l)) = _
    have h0 : hexValue '0' = some 0 := by decide
    rw [readHexFrom_cons, h0]
    exact ih

theorem toHex_ne_nil (n : Nat) : toHex n ≠ [] := by
  by_cases h : n < 16
  · rw [toHex_small n h]
    simp
  · rw [toHex_step n (by omega)]
    simp

theorem readHex_fmt_x (w n : Nat) : readHex (fmt_x w n) = some n := by
  have hne : fmt_x w n ≠ [] := by
    unfold fmt_x
    intro h
    exact toHex_ne_nil n (List.append_eq_nil.1 h).2
  have hr : readHexFrom 0 (fmt_x w n) = some n := by
    unfold fmt_x
    rw [readHexFrom_zeros, readHexFrom_toHex]
  cases hl : fmt_x w n with
  | nil => exact absurd hl hne
  | cons c cs =>
    rw [hl] at hr
    exact hr

theorem splitAtChar_first (sep : Char) (l r : List Char) :
    (∀ c ∈ l, c ≠ sep) → splitAtChar sep (l ++ sep :: r) = some (l, r) := by
  induction l with
  | nil =>
    intro _
    show splitAtChar sep (sep :: r) = _
    unfold splitAtChar
    rw [if_pos rfl]
  | cons x xs ih =>
    intro h
    show splitAtChar sep (x :: (xs ++ sep :: r)) = _
    unfold splitAtChar
    rw [if_neg (h x (List.mem_cons_self _ _)),
      ih (fun c hc => h c (List.mem_cons_of_mem _ hc))]

theorem lower_ne_sep (c : Char) (h : isLowerHex c = true) : c ≠ ':' ∧ c ≠ '.' := by
  constructor
  · intro he
    subst he
    exact absurd h (by decide)
  · intro he
    subst he
    exact absurd h (by decide)

/-- C12: for every triple accepted by `pci_handle` (bus of 16 bits, dev and func
of 8 bits), stripping the prefix `PCI:` of `pci_handle(bus, dev, func)`,
splitting the rest at `:` and at `.` and reading the three fields as
hexadecimal numbers gives back `(bus, dev, func)`. -/
theorem handle_round_trip (bus dev func : Nat) (hb : bus ≤ 65535) (hd : dev ≤ 255)
    (hf : func ≤ 255) :
    parse_function_handle (pci_handle bus dev func) = some (bus, dev, func) := by
  rw [pci_handle_full bus dev func (by omega) (by omega) (by omega)]
  unfold parse_function_handle
  have e : (['P', 'C', 'I', ':'] ++ fmt_x 2 bus ++ [':'] ++ fmt_x 2 dev ++ ['.']
      ++ fmt_x 1 func)
      = 'P' :: 'C' :: 'I' :: ':' :: (fmt_x 2 bus ++ ':' :: (fmt_x 2 dev ++ '.' :: fmt_x 1 func)) := by
    simp
  simp only [e, List.take_succ_cons, List.take_zero, List.drop_succ_cons, List.drop_zero,
    if_true]
  rw [splitAtChar_first ':' _ _ (fun c hc => (lower_ne_sep c (fmt_x_lower 2 bus c hc)).1)]
  simp only
  rw [splitAtChar_first '.' _ _ (fun c hc => (lower_ne_sep c (fmt_x_lower 2 dev c hc)).2)]
  simp only [readHex_fmt_x]

theorem handle_round_trip_witness :
    pci_handle 0x102 0x11 0x7 = "PCI:102:11.7"
    ∧ parse_function_handle "PCI:102:11.7" = some (0x102, 0x11, 0x7) := by
  have h := handle_round_trip 0x102 0x11 0x7 (by decide) (by decide) (by decide)
  have e : pci_handle 0x102 0x11 0x7 = "PCI:102:11.7" := by decide
  rw [e] at h
  exact ⟨e, h⟩

end Lshw
